import Mathlib

/-!
Verification of the "Luna" Discord chat bot repository (near-duplicate
single-file variants).  The development shallowly embeds the JavaScript
source into Lean:

* JavaScript values that flow through the completion client are modelled by an
  inductive `Json` type; JS truthiness, `||`, optional chaining and
  property access are modelled by explicit helper functions.
* JS numbers are modelled as exact rationals (`ℚ`); `Math.ceil` is `⌈·⌉`.
* The retry loop of `queryGemini` (variant `part_004`) is embedded as a
  fuel-bounded state machine whose external interactions (token fetch,
  HTTP responses, model listings, `Math.random`) are supplied by an
  environment record; the `try/catch` blocks of the source appear as the
  explicit error branches of each step.
* The message handler of the `app.js` dedupe variant is embedded as a fold
  over a list of inbound messages.

Every definition is translated from the source file it names in its
doc comment; the one definition written from the spec's words instead
(`forgetUser`, and the refinement-comparison definition
`firstListedWithPreferredKey`) says so explicitly.
-/

/-! ## Generic string helpers (models of the JS string primitives used) -/

/-- Character-list prefix test (model of the character comparison underlying
`String.prototype.includes`). -/
def isPre : List Char → List Char → Bool
  | [], _ => true
  | _ :: _, [] => false
  | a :: as, b :: bs => a == b && isPre as bs

/-- Does the haystack (first char list) contain the needle as a contiguous
infix?  Model of `String.prototype.includes`. -/
def infixAux (needle : List Char) : List Char → Bool
  | [] => needle.isEmpty
  | c :: rest => isPre needle (c :: rest) || infixAux needle rest

/-- `containsSubstr s pat` models `s.includes(pat)`. -/
def containsSubstr (s pat : String) : Bool :=
  infixAux pat.toList s.toList

/-- Model of `String.prototype.toLowerCase` (ASCII, which is all the source
compares). -/
def toLowerStr (s : String) : String := String.mk (s.toList.map Char.toLower)

/-- Model of `str.endsWith(suffix)`. -/
def strEndsWith (s suf : String) : Bool :=
  isPre suf.toList.reverse s.toList.reverse

/-- Model of `str.split('/').pop()`: the final `/`-separated segment. -/
def lastSeg (s : String) : String := (s.splitOn "/").getLastD s

/-- The apostrophe character, built explicitly. -/
def apos : String := String.singleton (Char.ofNat 39)

/-- The regex `\d` class: code points of '0'..'9'. -/
def isDigitC (c : Char) : Bool := 48 ≤ c.toNat && c.toNat ≤ 57

/-- Numeric value of a list of decimal digit characters (the value
`parseInt`/`parseFloat` assigns to the digit group). -/
def digitsVal (ds : List Char) : ℕ :=
  ds.foldl (fun a c => a * 10 + (c.toNat - 48)) 0

/-- Exact value of the decimal literal `d1 ++ "." ++ d2` (rational model of
the JS float produced by `parseFloat`). -/
def decValQ (d1 d2 : List Char) : ℚ :=
  (digitsVal d1 : ℚ) + (digitsVal d2 : ℚ) / ((10 : ℚ) ^ d2.length)

/-! ## JSON values

Model of the JavaScript values produced by `JSON.parse`/`res.json()`.
JS numbers in the payloads relevant to the claims are integers, so `num`
carries an `Int`. -/

inductive Json where
  | null
  | bool (b : Bool)
  | num (i : Int)
  | str (s : String)
  | arr (xs : List Json)
  | obj (fields : List (String × Json))

/-- Property access `j?.k` (undefined is `none`). -/
def jget : Json → String → Option Json
  | .obj fs, k => (fs.find? (fun p => p.1 == k)).map (·.2)
  | _, _ => none

/-- Index access `j?.[i]` for arrays (the only indexed values in the
payloads the source handles). -/
def jidx : Json → ℕ → Option Json
  | .arr xs, i => xs.get? i
  | _, _ => none

/-- JS truthiness of a value. -/
def truthy : Json → Bool
  | .null => false
  | .bool b => b
  | .num i => i != 0
  | .str s => s != ""
  | .arr _ => true
  | .obj _ => true

/-- JS truthiness where `none` models `undefined`. -/
def otruthy : Option Json → Bool
  | some j => truthy j
  | none => false

/-- JS `a || b`. -/
def jsOr (a b : Option Json) : Option Json :=
  if otruthy a then a else b

/-- Decimal rendering of an integer (JS `String(n)` for integral numbers). -/
def intToString (i : Int) : String :=
  if i < 0 then "-" ++ toString i.natAbs else toString i.natAbs

mutual
/-- Element rendering used by `Array.prototype.join` (null/undefined render
as the empty string; objects as "[object Object]"; nested arrays as their
own comma join). -/
def jsJoinElem : Json → String
  | .str s => s
  | .null => ""
  | .bool b => if b then "true" else "false"
  | .num i => intToString i
  | .arr xs => jsJoinElemList xs
  | .obj _ => "[object Object]"

def jsJoinElemList : List Json → String
  | [] => ""
  | [x] => jsJoinElem x
  | x :: y :: rest => jsJoinElem x ++ "," ++ jsJoinElemList (y :: rest)
end

def jsJoinElemO : Option Json → String
  | some j => jsJoinElem j
  | none => ""

/-- JSON string escaping for `JSON.stringify` (the escapes that can occur in
the source's payloads). -/
def escJsonChar (c : Char) : String :=
  if c = Char.ofNat 34 then "\\" ++ String.singleton (Char.ofNat 34)
  else if c = '\\' then "\\\\"
  else if c = '\n' then "\\n"
  else if c = '\t' then "\\t"
  else if c = '\r' then "\\r"
  else String.singleton c

def escJson (s : String) : String :=
  String.join (s.toList.map escJsonChar)

mutual
/-- Model of `JSON.stringify`. -/
def jsonStringify : Json → String
  | .null => "null"
  | .bool b => if b then "true" else "false"
  | .num i => intToString i
  | .str s => "\"" ++ escJson s ++ "\""
  | .arr xs => "[" ++ jsonStringifyList xs ++ "]"
  | .obj fs => "\x7b" ++ jsonStringifyFields fs ++ "\x7d"

def jsonStringifyList : List Json → String
  | [] => ""
  | [x] => jsonStringify x
  | x :: y :: rest => jsonStringify x ++ "," ++ jsonStringifyList (y :: rest)

def jsonStringifyFields : List (String × Json) → String
  | [] => ""
  | [p] => "\"" ++ escJson p.1 ++ "\":" ++ jsonStringify p.2
  | p :: q :: rest =>
      "\"" ++ escJson p.1 ++ "\":" ++ jsonStringify p.2 ++ "," ++
        jsonStringifyFields (q :: rest)
end

/-! ## part_004: `parseRetryDelay` -/

namespace V4

/-- Parse of the regex `^(\d+(?:\.\d+)?)s$` (part_004 line 195): integer
digits, optional fractional digits, terminal lowercase `s`.  Returns the two
digit groups. -/
def sMatchParse (cs : List Char) : Option (List Char × List Char) :=
  let d1 := cs.takeWhile isDigitC
  if d1.isEmpty then none
  else
    match cs.dropWhile isDigitC with
    | ['s'] => some (d1, [])
    | '.' :: r2 =>
      let d2 := r2.takeWhile isDigitC
      if d2.isEmpty then none
      else if r2.dropWhile isDigitC = ['s'] then some (d1, d2) else none
    | _ => none

/-- Parse of the regex `^PT(?:(\d+)M)?(?:(\d+)S)?$` with the `i` flag
(part_004 line 197).  Returns (minutes digits value, seconds digits value);
an absent group parses as 0, exactly as `parseInt(iso[k] || '0', 10)`. -/
def isoParse (cs : List Char) : Option (ℕ × ℕ) :=
  match cs with
  | p :: t :: rest =>
    if (p == 'P' || p == 'p') && (t == 'T' || t == 't') then
      match rest.takeWhile isDigitC, rest.dropWhile isDigitC with
      | [], [] => some (0, 0)
      | [], _ :: _ => none
      | _ :: _, [] => none
      | d1 :: ds1, m :: r2 =>
        if m == 'M' || m == 'm' then
          if r2.isEmpty then some (digitsVal (d1 :: ds1), 0)
          else
            match r2.takeWhile isDigitC, r2.dropWhile isDigitC with
            | _ :: _, [s] =>
              if s == 'S' || s == 's' then
                some (digitsVal (d1 :: ds1), digitsVal (r2.takeWhile isDigitC))
              else none
            | _, _ => none
        else if (m == 'S' || m == 's') && r2.isEmpty then
          some (0, digitsVal (d1 :: ds1))
        else none
    else none
  | _ => none

/-- `Math.ceil(parseFloat(d1 ++ "." ++ d2) * 1000)` computed exactly in ℕ:
`a*1000 + ⌈f*1000 / 10^k⌉` with the inner ceiling as ℕ ceiling division.
The lemma `ceilMs_eq` below proves this equal to `⌈decValQ d1 d2 * 1000⌉`,
the expression's value under the rational model of JS floats. -/
def ceilMs (d1 d2 : List Char) : ℕ :=
  digitsVal d1 * 1000 +
    (digitsVal d2 * 1000 + (10 ^ d2.length - 1)) / 10 ^ d2.length

/-- part_004 lines 189-208, `parseRetryDelay(detail)`.
`null` is modelled as `none`; the JS number result (a millisecond count,
always a non-negative integer here) is a ℕ.  The surrounding `try/catch`
cannot fire in the pure model (nothing inside throws), so the function is
total, as the source promises its caller. -/
def parseRetryDelay (detail : Json) : Option ℕ :=
  if !truthy detail then none
  else
    match jget detail "retryDelay" with
    | some (.str rd) =>
      match sMatchParse rd.toList with
      | some d => some (ceilMs d.1 d.2)
      | none =>
        match isoParse rd.toList with
        | some ms => some ((ms.1 * 60 + ms.2) * 1000)
        | none => none
    | _ => none

/-- The `content?.parts?.[0]?.text` branch of `parseGeminiResponse`
(part_004 line 241). -/
def partsPath (content : Json) : Option String :=
  if otruthy (((jget content "parts").bind (jidx · 0)).bind (jget · "text")) then
    match jget content "parts" with
    | some (.arr ps) =>
      some (String.intercalate "\n" (ps.map (fun p => jsJoinElemO (jget p "text"))))
    | _ => none
  else none

/-- The `generatedText` / `output_text` / `JSON.stringify(...).slice(0,2000)`
tail of `parseGeminiResponse` (part_004 lines 243-245), reached when no
candidate branch returned. -/
def tailPath (data : Json) : String :=
  if otruthy (jget data "generatedText") then
    jsJoinElemO (jget data "generatedText")
  else if otruthy (jget data "output_text") then
    jsJoinElemO (jget data "output_text")
  else (jsonStringify data).take 2000

/-- part_004 lines 231-250, `parseGeminiResponse(data)`.
The branches that return a raw truthy JS value (`generatedText`,
`output_text`, a string `content`) are rendered with `jsJoinElem`, which is
the identity on strings — the only values those fields carry in practice.
The `try/catch` cannot fire in the pure model. -/
def parseGeminiResponse (data : Json) : String :=
  let cand := jsOr ((jget data "candidates").bind (jidx · 0))
      (((jget data "response").bind (jget · "candidates")).bind (jidx · 0))
  let viaCand : Option String :=
    if otruthy cand then
      let c := cand.getD .null
      let content := (jsOr (jsOr (jget c "content") (jget c "output")) (some c)).getD .null
      match content with
      | .str s => some s
      | .arr xs =>
        match xs.head? with
        | some (.str _) => some (String.intercalate "\n" (xs.map jsJoinElem))
        | _ =>
          if otruthy ((xs.head?).bind (jget · "text")) then
            some (String.intercalate "\n" (xs.map (fun x => jsJoinElemO (jget x "text"))))
          else
            partsPath content
      | _ => partsPath content
    else none
  match viaCand with
  | some s => s
  | none => tailPath data

/-! ## part_004: model discovery and fallback -/

/-- `envModel.startsWith('models/') ? envModel : "models/" + envModel`
(part_004 line 141 and elsewhere). -/
def normalizeModel (e : String) : String :=
  if e.startsWith "models/" then e else "models/" ++ e

/-- part_004 lines 146-152, the hardcoded `preferredKeys`. -/
def preferredKeys : List String :=
  ["gemini-2.5-flash", "gemini-2.5-pro", "gemini-2.0-flash", "gemini-2.0", "gemini-2.5"]

/-- The env-override match predicate of part_004 line 142.  The provider's
model objects are represented by their `name` field, the only field the
source reads. -/
def envMatchPred (normalized : String) (n : String) : Bool :=
  n == normalized || strEndsWith n ("/" ++ lastSeg normalized) ||
    containsSubstr n (lastSeg normalized)

/-- part_004 lines 138-162, `pickPreferredModel(models, envModel)`.
`null` is `none`; an unset `GEMINI_MODEL` env var is the empty string
(falsy). -/
def pickPreferredModel (models : List String) (envModel : String) : Option String :=
  if models.isEmpty then none
  else
    let fromEnv : Option String :=
      if envModel != "" then
        models.find? (envMatchPred (normalizeModel envModel))
      else none
    match fromEnv with
    | some n => some n
    | none =>
      match preferredKeys.findSome? (fun k => models.find? (fun n => containsSubstr n k)) with
      | some n => some n
      | none =>
        match models.find? (fun n => containsSubstr (toLowerStr n) "gemini") with
        | some n => some n
        | none => models.head?

/-- part_004 lines 164-182, `ensureModel()`.
State passing: `cache` is `cachedModelName`; `listings i` is the result of
the `i`-th call to `listAvailableModels` (which catches its own errors and
returns `[]` on failure); `li` is the index of the next such call.  Returns
(model name, new cache, new listing index).  The `none` fallback of the
final branch is unreachable for a non-empty listing (`pickPreferredModel`
then always finds a name); it mirrors JS `cachedModelName = null` with the
string rendering "null" a null model name would produce downstream. -/
def ensureModel (cache : Option String) (listings : ℕ → List String) (li : ℕ)
    (envModel : String) : String × Option String × ℕ :=
  match cache with
  | some m => (m, some m, li)
  | none =>
    let models := listings li
    if models.isEmpty then
      if envModel != "" then
        (normalizeModel envModel, some (normalizeModel envModel), li + 1)
      else
        ("models/gemini-2.5-flash", some "models/gemini-2.5-flash", li + 1)
    else
      match pickPreferredModel models envModel with
      | some n => (n, some n, li + 1)
      | none => ("null", none, li + 1)

/-- part_004 lines 210-215, `FALLBACK_MODEL_CANDIDATES`. -/
def FALLBACK_MODEL_CANDIDATES : List String :=
  ["models/gemini-2.5-flash", "models/gemini-2.0-flash", "models/gemini-2.5", "models/gemini-2.0"]

/-- The candidate loop of `tryFallbackModel` (part_004 lines 220-224).
`if (found) return found` — a found empty string is falsy in JS and the
loop moves on (the predicate can in fact never produce one, but the
embedding keeps the check). -/
def findCand : List String → List String → Option String
  | [], _ => none
  | c :: cs, names =>
    match names.find? (fun n =>
        n == c || strEndsWith n ("/" ++ lastSeg c) || containsSubstr n (lastSeg c)) with
    | some n => if n == "" then findCand cs names else some n
    | none => findCand cs names

/-- part_004 lines 217-228, `tryFallbackModel()`.  `names` is the name list
of the `listAvailableModels()` call it performs. -/
def tryFallbackModel (names : List String) (envModel : String) : String :=
  match findCand FALLBACK_MODEL_CANDIDATES names with
  | some n => n
  | none =>
    match names with
    | n :: _ => n
    | [] => if envModel != "" then normalizeModel envModel else "models/gemini-2.5-flash"

/-! ## part_004: the `queryGemini` retry loop

External interactions are supplied by an `Env`:
`events a` is what attempt number `a` (1-based, the source's `attempt`
variable) observes at its `getAccessToken`/`fetch` step, `listings i` the
result of the `i`-th `listAvailableModels()` call, and `rand i` the `i`-th
`Math.random()` value. -/

/-- An HTTP response as the loop body sees it: `status`, the body text
(`res.text()`), its `JSON.parse` (`none` when the text is not JSON, in
which case `res.json()` on the success path throws), and the `retry-after`
header. -/
structure Resp where
  status : ℕ
  text : String
  json : Option Json
  retryAfter : Option String

/-- What one loop iteration observes: `getAccessToken()` throwing, the
`fetch` itself throwing, or a response. -/
inductive AttemptEvent where
  | tokenFail
  | fetchThrow
  | response (r : Resp)

structure Env where
  envModel : String
  cached0 : Option String
  listings : ℕ → List String
  events : ℕ → AttemptEvent
  rand : ℕ → ℚ

/-- Mutable state threaded through the loop: `modelName`, the
`cachedModelName` global, and the counters of consumed listings and random
values. -/
structure St where
  modelName : String
  cached : Option String
  li : ℕ
  ri : ℕ
deriving DecidableEq

/-- Observable actions of the loop, for stating the retry/backoff claims. -/
inductive TraceEv where
  | attemptStarted (model : String)
  | switched (oldModel newModel : String)
  | slept (ms : ℚ)
deriving DecidableEq

inductive StepRes where
  | reply (s : String)
  | retry (st : St)
deriving DecidableEq

def MAX_ATTEMPTS : ℕ := 5

/-- part_004 line 359 — the string returned after all attempts fail. -/
def apology : String := "Sorry, I cannot reach the AI right now (quota or model issue)."

/-- `res.ok`. -/
def respOk (r : Resp) : Bool := 200 ≤ r.status && r.status < 300

/-- State after the loop's `catch (e)` block (part_004 lines 347-355):
backoff sleep only while attempts remain. -/
def catchSt (attempt : ℕ) (st : St) : St :=
  if attempt < MAX_ATTEMPTS then { st with ri := st.ri + 1 } else st

/-- Trace of the `catch (e)` block: `Math.min(60_000, 2**attempt * 1000 +
Math.random() * 500)`. -/
def catchTr (env : Env) (attempt : ℕ) (st : St) : List TraceEv :=
  if attempt < MAX_ATTEMPTS then
    [TraceEv.slept (min 60000 ((2 : ℚ) ^ attempt * 1000 + env.rand st.ri * 500))]
  else []

/-- The `retryDelay` scan over `jsonBody.error.details` (part_004 lines
296-301): first detail whose parsed delay is truthy. -/
def findRetryMs : List Json → Option ℕ
  | [] => none
  | d :: ds =>
    match parseRetryDelay d with
    | some m => if m ≠ 0 then some m else findRetryMs ds
    | none => findRetryMs ds

/-- `jsonBody?.error?.details && Array.isArray(...)` guard plus the scan. -/
def detailsWaitMs (jsonBody : Option Json) : Option ℕ :=
  match (jsonBody.bind (jget · "error")).bind (jget · "details") with
  | some (.arr ds) => findRetryMs ds
  | _ => none

/-- `Number(hdr)` for the plain decimal strings a `retry-after` header can
carry; other syntaxes (exponent, hex, `Infinity`) are modelled as NaN
(`none`), which the source also ignores. -/
def jsNumber (s : String) : Option ℚ :=
  let cs := ((s.toList.dropWhile (· == ' ')).reverse.dropWhile (· == ' ')).reverse
  if cs.isEmpty then some 0
  else
    let sg : ℚ × List Char :=
      match cs with
      | '-' :: t => (-1, t)
      | '+' :: t => (1, t)
      | _ => (1, cs)
    let d1 := sg.2.takeWhile isDigitC
    match sg.2.dropWhile isDigitC with
    | [] => if d1.isEmpty then none else some (sg.1 * digitsVal d1)
    | '.' :: r2 =>
      let d2 := r2.takeWhile isDigitC
      if (r2.dropWhile isDigitC).isEmpty && !(d1.isEmpty && d2.isEmpty) then
        some (sg.1 * ((digitsVal d1 : ℚ) + (digitsVal d2 : ℚ) / (10 : ℚ) ^ d2.length))
      else none
    | _ => none

/-- `waitMs` after the detail scan and the `Retry-After` header fallback
(part_004 lines 295-308). -/
def waitHint (r : Resp) : Option ℚ :=
  match detailsWaitMs r.json with
  | some w => some ((w : ℕ) : ℚ)
  | none =>
    match r.retryAfter with
    | some h =>
      if h != "" then
        match jsNumber h with
        | some n => some ((Rat.ceil (n * 1000) : ℤ) : ℚ)
        | none => none
      else none
    | none => none

/-- `jsonBody?.error?.message || txt || ''` (part_004 line 310). -/
def errMsgVal (txt : String) (jsonBody : Option Json) : Json :=
  (jsOr (jsOr ((jsonBody.bind (jget · "error")).bind (jget · "message"))
      (some (.str txt))) (some (.str ""))).getD (.str "")

/-- The two quota phrases of part_004 line 311 (needles are already
lowercase in the source). -/
def quotaHit (s : String) : Bool :=
  containsSubstr (toLowerStr s) ("doesn" ++ apos ++ "t have a free quota") ||
    containsSubstr (toLowerStr s) "does not have a free quota"

/-- The `if (!waitMs) ... await sleep(waitMs); continue;` tail of the 429
branch (part_004 lines 323-331): use the hint when truthy, otherwise
exponential backoff with jitter capped at 60s. -/
def after429Wait (env : Env) (attempt : ℕ) (st : St) (hint : Option ℚ) :
    StepRes × List TraceEv :=
  match hint with
  | some w =>
    if w ≠ 0 then (.retry st, [TraceEv.slept w])
    else
      (.retry { st with ri := st.ri + 1 },
       [TraceEv.slept (min 60000 ((2 : ℚ) ^ attempt * 1000 + env.rand st.ri * 1000))])
  | none =>
    (.retry { st with ri := st.ri + 1 },
     [TraceEv.slept (min 60000 ((2 : ℚ) ^ attempt * 1000 + env.rand st.ri * 1000))])

/-- The 429 branch (part_004 lines 291-332).  A truthy non-string
`error.message` would make `errMsg.toLowerCase()` throw, landing in the
loop's catch. -/
def handle429 (env : Env) (attempt : ℕ) (st : St) (r : Resp) :
    StepRes × List TraceEv :=
  let hint := waitHint r
  match errMsgVal r.text r.json with
  | .str s =>
    if quotaHit s then
      let nm := tryFallbackModel (env.listings st.li) env.envModel
      let st2 : St := { st with li := st.li + 1 }
      if nm != "" && nm != st.modelName then
        (.retry { st2 with modelName := nm, cached := some nm, ri := st2.ri + 1 },
         [TraceEv.switched st.modelName nm, TraceEv.slept (1000 + env.rand st2.ri * 500)])
      else after429Wait env attempt st2 hint
    else after429Wait env attempt st hint
  | _ => (.retry (catchSt attempt st), catchTr env attempt st)

/-- The 404 branch (part_004 lines 335-343): drop the cached model,
re-resolve; retry only when the resolution changed, otherwise fall through
to the `throw`, i.e. the catch. -/
def handle404 (env : Env) (attempt : ℕ) (st : St) : StepRes × List TraceEv :=
  let e := ensureModel none env.listings st.li env.envModel
  let st2 : St := { st with cached := e.2.1, li := e.2.2 }
  if e.1 != st.modelName then
    (.retry { st2 with modelName := e.1 }, [])
  else
    (.retry (catchSt attempt st2), catchTr env attempt st2)

/-- One iteration of the `while (attempt < MAX_ATTEMPTS)` body, without the
leading `attemptStarted` trace event. -/
def stepInner (env : Env) (attempt : ℕ) (st : St) : StepRes × List TraceEv :=
  match env.events attempt with
  | .tokenFail => (.retry (catchSt attempt st), catchTr env attempt st)
  | .fetchThrow => (.retry (catchSt attempt st), catchTr env attempt st)
  | .response r =>
    if respOk r then
      match r.json with
      | some data => (.reply (parseGeminiResponse data), [])
      | none => (.retry (catchSt attempt st), catchTr env attempt st)
    else if r.status == 429 then handle429 env attempt st r
    else if r.status == 404 then handle404 env attempt st
    else (.retry (catchSt attempt st), catchTr env attempt st)

/-- One full iteration, with its `attemptStarted` event. -/
def stepBody (env : Env) (attempt : ℕ) (st : St) : StepRes × List TraceEv :=
  ((stepInner env attempt st).1,
   TraceEv.attemptStarted st.modelName :: (stepInner env attempt st).2)

/-- The retry loop, fuelled by the remaining iterations
(`fuel + attempt = MAX_ATTEMPTS` along a run started by `queryGemini`).
When fuel runs out the loop exits and part_004 line 359 returns the
apology string. -/
def loop (env : Env) : ℕ → ℕ → St → List TraceEv → String × List TraceEv
  | 0, _, _, tr => (apology, tr)
  | fuel + 1, attempt, st, tr =>
    match stepBody env (attempt + 1) st with
    | (.reply s, tevs) => (s, tr ++ tevs)
    | (.retry st2, tevs) => loop env fuel (attempt + 1) st2 (tr ++ tevs)

/-- part_004 lines 252-360, `queryGemini(prompt)` with its interactions
abstracted into `env`.  The prompt itself only flows into the request body
and does not influence control flow, so it is not a parameter.  Returns the
reply string and the observable trace. -/
def queryGemini (env : Env) : String × List TraceEv :=
  let e := ensureModel env.cached0 env.listings 0 env.envModel
  loop env MAX_ATTEMPTS 0 { modelName := e.1, cached := e.2.1, li := e.2.2, ri := 0 } []

/-- Number of attempts started in a trace. -/
def countStarted (tr : List TraceEv) : ℕ :=
  tr.countP (fun e => match e with | .attemptStarted _ => true | _ => false)

end V4

/-! ## part_005: `queryGemini` (no internal fallback; rethrows) -/

namespace V5

/-- External interactions of part_005's `queryGemini`: whether
`getGeminiAccessToken()` succeeds, and the outcome of the `fetch`
(`.error` is a thrown network error, carrying its message). -/
structure Env where
  tokenOk : Bool
  fetch : Except String V4.Resp

/-- part_005 line 97's default reply. -/
def defaultReply : String := "Gemini could not generate a response."

/-- part_005 lines 74-102, `queryGemini(prompt)`.  Result is the JS value
the function returns (`data?.candidates?.[0]?.content || default`), or the
error it lets escape: the `catch` block logs and rethrows (`throw e` —
"Let Discord bot handle fallback"), so every failure propagates to the
caller. -/
def queryGemini (env : Env) : Except String Json :=
  if !env.tokenOk then .error "Failed to get Gemini access token"
  else
    match env.fetch with
    | .error e => .error e
    | .ok r =>
      if V4.respOk r then
        match r.json with
        | some data =>
          .ok ((jsOr (((jget data "candidates").bind (jidx · 0)).bind (jget · "content"))
              (some (.str defaultReply))).getD (.str defaultReply))
        | none => .error "Unexpected end of JSON input"
      else .error ("Gemini failed: " ++ r.text)

end V5

/-! ## part_006: `pickPreferredModel` / `ensureModel` -/

namespace V6

/-- part_006 lines 154-161, the hardcoded `preferredKeys`. -/
def preferredKeys : List String :=
  ["gemini-2.5-pro", "gemini-2.5-flash", "gemini-2.0-flash", "gemini-2.5", "gemini-2.0",
   "gemini-pro"]

/-- The env-override match predicate of part_006 line 149 (the raw env
value, no `models/` normalization in this variant). -/
def envMatchPred (e n : String) : Bool :=
  n == e || strEndsWith n ("/" ++ e) || containsSubstr n e

/-- part_006 lines 143-174, `pickPreferredModel(models, envModel)`.  Model
objects are represented by their `name` field, the only field read. -/
def pickPreferredModel (models : List String) (envModel : String) : Option String :=
  if models.isEmpty then none
  else
    let fromEnv : Option String :=
      if envModel != "" then models.find? (envMatchPred envModel) else none
    match fromEnv with
    | some n => some n
    | none =>
      match preferredKeys.findSome? (fun k => models.find? (fun n => containsSubstr n k)) with
      | some n => some n
      | none =>
        match models.find? (fun n => containsSubstr (toLowerStr n) "gemini") with
        | some n => some n
        | none => models.head?

/-- part_006 lines 176-195, `ensureModel()`, with the same state passing as
`V4.ensureModel`; the empty-listing default here is
`models/gemini-2.5-pro`. -/
def ensureModel (cache : Option String) (listings : ℕ → List String) (li : ℕ)
    (envModel : String) : String × Option String × ℕ :=
  match cache with
  | some m => (m, some m, li)
  | none =>
    let models := listings li
    if models.isEmpty then
      if envModel != "" then
        (V4.normalizeModel envModel, some (V4.normalizeModel envModel), li + 1)
      else
        ("models/gemini-2.5-pro", some "models/gemini-2.5-pro", li + 1)
    else
      match pickPreferredModel models envModel with
      | some n => (n, some n, li + 1)
      | none => ("null", none, li + 1)

/-- Refinement-comparison definition written from the claim's words, not
from the source: "the first listed model whose name contains a key from the
hardcoded preference order". -/
def firstListedWithPreferredKey (models : List String) : Option String :=
  models.find? (fun n => preferredKeys.any (fun k => containsSubstr n k))

end V6

/-! ## Memory store (part_004 lines 50-72 schema and queries) -/

namespace Mem

/-- A row of the `memories` table, with the columns the claims mention.
`created_at` is the `CURRENT_TIMESTAMP` default at insertion. -/
structure MemRow where
  user_id : String
  content : String
  created_at : ℕ
deriving DecidableEq

/-- `INSERT INTO memories ...` (part_004 lines 50-59): append a row. -/
def storeMemory (db : List MemRow) (r : MemRow) : List MemRow := db ++ [r]

/-- `WHERE user_id=?` over the table in insertion order. -/
def rowsForUser (u : String) (db : List MemRow) : List MemRow :=
  db.filter (fun r => r.user_id == u)

/-- The result set of `SELECT ... WHERE user_id=? ORDER BY created_at DESC`
(part_004 lines 63-66).  When `created_at` strictly increases along the
table (the justifying lemma `memoriesDesc_sorted` below), reversing the
insertion-ordered rows is exactly the DESC ordering. -/
def memoriesDesc (u : String) (db : List MemRow) : List MemRow :=
  (rowsForUser u db).reverse

/-- The rows underlying `fetchRecentMemories` after `LIMIT ?` and the final
`.reverse()`. -/
def fetchRecentRows (u : String) (lim : ℕ) (db : List MemRow) : List MemRow :=
  ((memoriesDesc u db).take lim).reverse

/-- part_004 lines 61-72, `fetchRecentMemories(userId, limit)`:
`rows.map(r => r.content).reverse()`. -/
def fetchRecentMemories (u : String) (lim : ℕ) (db : List MemRow) : List String :=
  (((memoriesDesc u db).take lim).map (·.content)).reverse

/-- Modelled from the spec: no variant under `src/` contains the "forget"
command; the spec describes it as a bulk `DELETE` of memory rows by user
id ("removes all records for a user id and leaves other users' records
intact"). -/
def forgetUser (u : String) (db : List MemRow) : List MemRow :=
  db.filter (fun r => !(r.user_id == u))

end Mem

/-! ## app.js dedupe variant (second `app.js` unit): message handler -/

namespace Bot

/-- An inbound `messageCreate` event together with the runtime facts the
handler consults: `mentionsBotUser` is `message.mentions.users.has(client.user.id)`,
`time` the value `Date.now()` yields while the synchronous guard block
runs (the source calls it twice in that block with no suspension point
between), and `aiOk` whether the awaited section (fetch memories, query,
store, reply) completes without an exception — the outer `try/catch`
swallows one otherwise. -/
structure Msg where
  id : String
  authorId : String
  isBot : Bool
  content : String
  mentionsBotUser : Bool
  nickname : Option String
  time : ℕ
  aiOk : Bool
deriving DecidableEq

/-- What the handler did with one event. -/
structure Out where
  msg : Msg
  handled : Bool
  replied : Bool
  stored : Bool
deriving DecidableEq

/-- The `COOLDOWN` map and the `handledMessages` set.  A set member is
recorded with its expiry time `markTime + DEDUPE_TTL_MS`, modelling the
`setTimeout` deletion; entries are kept and filtered by expiry at lookup. -/
structure BotState where
  cooldown : List (String × ℕ)
  handledIds : List (String × ℕ)
deriving DecidableEq

def initState : BotState := ⟨[], []⟩

def lookupCd : List (String × ℕ) → String → Option ℕ
  | [], _ => none
  | p :: t, u => if p.1 = u then some p.2 else lookupCd t u

/-- `COOLDOWN.set(k, v)`: shadowing cons (lookup takes the newest). -/
def setCd (m : List (String × ℕ)) (k : String) (v : ℕ) : List (String × ℕ) :=
  (k, v) :: m

/-- `handledMessages.has(id)` at time `t`. -/
def handledHas (h : List (String × ℕ)) (id : String) (t : ℕ) : Bool :=
  h.any (fun p => p.1 == id && decide (t < p.2))

/-- app.js lines 427-441, `messageMentionsBot(message)`. -/
def messageMentionsBot (m : Msg) : Bool :=
  if m.content == "" then false
  else if m.mentionsBotUser then true
  else
    let nickHit :=
      match m.nickname with
      | some nk => toLowerStr nk != "" && containsSubstr (toLowerStr m.content) (toLowerStr nk)
      | none => false
    if nickHit then true
    else containsSubstr (toLowerStr m.content) "luna"

def noOut (m : Msg) : Out := ⟨m, false, false, false⟩

/-- app.js lines 453-510, the `messageCreate` handler for one event:
guards in source order (missing content, bot author, dedupe, mention,
cooldown), then `COOLDOWN.set`, then `markHandled` — both before the AI
query — then reply/store when the awaited section succeeds.  JS
`Date.now() - last` on a clock that went backwards is negative and below
the window; truncated `ℕ` subtraction yields 0, which is below any
positive window, the same decision. -/
def stepBot (W TTL : ℕ) (st : BotState) (m : Msg) : BotState × Out :=
  if m.content == "" then (st, noOut m)
  else if m.isBot then (st, noOut m)
  else if handledHas st.handledIds m.id m.time then (st, noOut m)
  else if !messageMentionsBot m then (st, noOut m)
  else
    let last := (lookupCd st.cooldown m.authorId).getD 0
    if m.time - last < W then (st, noOut m)
    else
      let st2 : BotState :=
        ⟨setCd st.cooldown m.authorId m.time, (m.id, m.time + TTL) :: st.handledIds⟩
      if m.aiOk then (st2, ⟨m, true, true, true⟩) else (st2, ⟨m, true, false, false⟩)

/-- The handler applied to a sequence of delivered events. -/
def runBot (W TTL : ℕ) : BotState → List Msg → List Out × BotState
  | st, [] => ([], st)
  | st, m :: ms =>
    let p := stepBot W TTL st m
    let rest := runBot W TTL p.1 ms
    (p.2 :: rest.1, rest.2)

end Bot

/-! ## Concrete inputs used by counterexamples and witnesses -/

namespace ExIn

/-- A 200 response whose first candidate's `content` is `[""]` — the shape
that makes `parseGeminiResponse` join empty strings. -/
def dataC1 : Json :=
  Json.obj [("candidates", Json.arr [Json.obj [("content", Json.arr [Json.str ""])]])]

def envC1 : V4.Env :=
  { envModel := ""
    cached0 := some "models/gemini-2.5-flash"
    listings := fun _ => []
    events := fun _ => .response ⟨200, "", some dataC1, none⟩
    rand := fun _ => 0 }

/-- Every attempt's fetch throws. -/
def envC2 : V4.Env :=
  { envModel := ""
    cached0 := some "m0"
    listings := fun _ => []
    events := fun _ => .fetchThrow
    rand := fun _ => 0 }

/-- A lowercase quota-exhaustion message containing the first phrase of
part_004 line 311. -/
def msgQuota : String := "the model doesn" ++ apos ++ "t have a free quota tier"

/-- 429 body carrying only the quota message. -/
def jC3 : Json := Json.obj [("error", Json.obj [("message", Json.str msgQuota)])]

def envC3 : V4.Env :=
  { envModel := ""
    cached0 := some "models/gemini-2.5-flash"
    listings := fun _ => ["models/gemini-2.5-flash"]
    events := fun _ => .response ⟨429, "", some jC3, none⟩
    rand := fun _ => 0 }

def stC3 : V4.St := ⟨"models/gemini-2.5-flash", some "models/gemini-2.5-flash", 0, 0⟩

/-- 429 body carrying both the quota message and a parsable `"5s"` retry
delay. -/
def jC4 : Json :=
  Json.obj [("error", Json.obj
    [("message", Json.str msgQuota),
     ("details", Json.arr [Json.obj [("retryDelay", Json.str "5s")]])])]

def envC4 : V4.Env :=
  { envModel := ""
    cached0 := some "models/old"
    listings := fun _ => ["models/gemini-2.5-flash"]
    events := fun _ => .response ⟨429, "", some jC4, none⟩
    rand := fun _ => 0 }

def stC4 : V4.St := ⟨"models/old", some "models/old", 0, 0⟩

/-- 429 body with the `"5s"` retry delay and a non-quota message. -/
def jW4 : Json :=
  Json.obj [("error", Json.obj
    [("message", Json.str "resource exhausted, try later"),
     ("details", Json.arr [Json.obj [("retryDelay", Json.str "5s")]])])]

def envW4 : V4.Env :=
  { envModel := ""
    cached0 := some "models/gemini-2.5-flash"
    listings := fun _ => ["models/gemini-2.5-flash"]
    events := fun _ => .response ⟨429, "", some jW4, none⟩
    rand := fun _ => 0 }

/-- part_005 environment: token obtained, fetch returns a 500. -/
def envW1 : V5.Env := ⟨true, .ok ⟨500, "backend boom", none, none⟩⟩

/-- Memory table: three rows of user `u` and one of `v`, timestamps
strictly increasing in insertion order. -/
def dbW6 : List Mem.MemRow :=
  [⟨"u", "a", 1⟩, ⟨"u", "b", 2⟩, ⟨"v", "x", 3⟩, ⟨"u", "c", 4⟩]

def dbW9 : List Mem.MemRow :=
  [⟨"a", "m1", 1⟩, ⟨"b", "m2", 2⟩, ⟨"a", "m3", 3⟩]

/-- Two messages of one user, 5s apart, both mentioning the bot. -/
def msg1 : Bot.Msg := ⟨"id1", "u", false, "hey luna", true, none, 100000, true⟩
def msg2 : Bot.Msg := ⟨"id2", "u", false, "luna again", true, none, 105000, true⟩

/-- Redelivery of the same message id 30s later, from another user. -/
def msg3 : Bot.Msg := ⟨"id1", "u2", false, "luna hi", true, none, 130000, true⟩

end ExIn

/-! # Theorems -/

/-! ## List helpers for the regex-parser proofs -/

theorem takeWhile_append_eq (p : Char → Bool) (d : List Char) (c : Char) (r : List Char)
    (hd : ∀ x ∈ d, p x = true) (hc : p c = false) :
    (d ++ c :: r).takeWhile p = d := by
  induction d with
  | nil => simp [List.takeWhile_cons, hc]
  | cons a t ih =>
    have ha : p a = true := hd a (List.mem_cons_self a t)
    simp only [List.cons_append, List.takeWhile_cons, ha, if_true]
    rw [ih (fun x hx => hd x (List.mem_cons_of_mem _ hx))]

theorem dropWhile_append_eq (p : Char → Bool) (d : List Char) (c : Char) (r : List Char)
    (hd : ∀ x ∈ d, p x = true) (hc : p c = false) :
    (d ++ c :: r).dropWhile p = c :: r := by
  induction d with
  | nil => simp [List.dropWhile_cons, hc]
  | cons a t ih =>
    have ha : p a = true := hd a (List.mem_cons_self a t)
    simp only [List.cons_append, List.dropWhile_cons, ha, if_true]
    exact ih (fun x hx => hd x (List.mem_cons_of_mem _ hx))

theorem digitsVal_aux_lt (ds : List Char) (hds : ∀ c ∈ ds, isDigitC c = true) :
    ∀ a : ℕ, ds.foldl (fun a c => a * 10 + (c.toNat - 48)) a < (a + 1) * 10 ^ ds.length := by
  induction ds with
  | nil =>
    intro a
    simp only [List.foldl_nil, List.length_nil, pow_zero, mul_one]
    omega
  | cons c t ih =>
    intro a
    have hc : c.toNat - 48 ≤ 9 := by
      have := hds c (List.mem_cons_self c t)
      simp only [isDigitC, Bool.and_eq_true, decide_eq_true_eq] at this
      omega
    have h1 := ih (fun x hx => hds x (List.mem_cons_of_mem _ hx)) (a * 10 + (c.toNat - 48))
    have h2 : (a * 10 + (c.toNat - 48) + 1) * 10 ^ t.length ≤ (a + 1) * 10 ^ (t.length + 1) := by
      have hstep : a * 10 + (c.toNat - 48) + 1 ≤ (a + 1) * 10 := by omega
      calc (a * 10 + (c.toNat - 48) + 1) * 10 ^ t.length
          ≤ ((a + 1) * 10) * 10 ^ t.length := Nat.mul_le_mul_right _ hstep
        _ = (a + 1) * 10 ^ (t.length + 1) := by rw [pow_succ]; ring
    simpa [List.length_cons] using lt_of_lt_of_le h1 h2

theorem digitsVal_lt (ds : List Char) (hds : ∀ c ∈ ds, isDigitC c = true) :
    digitsVal ds < 10 ^ ds.length := by
  simpa [digitsVal] using digitsVal_aux_lt ds hds 0

/-- `ceilMs d1 d2` is the ceiling of `decValQ d1 d2 * 1000`: it is the
unique integer in `[N*1000, N*1000 + 1)`.  This justifies embedding
`Math.ceil(parseFloat(...) * 1000)` as `ceilMs`. -/
theorem ceilMs_spec (d1 d2 : List Char) :
    decValQ d1 d2 * 1000 ≤ (V4.ceilMs d1 d2 : ℚ) ∧
      (V4.ceilMs d1 d2 : ℚ) < decValQ d1 d2 * 1000 + 1 := by
  have hD : 0 < 10 ^ d2.length := pow_pos (by norm_num) _
  have hmod := Nat.div_add_mod (digitsVal d2 * 1000 + (10 ^ d2.length - 1)) (10 ^ d2.length)
  have hmlt := Nat.mod_lt (digitsVal d2 * 1000 + (10 ^ d2.length - 1)) hD
  have hself := Nat.div_mul_le_self (digitsVal d2 * 1000 + (10 ^ d2.length - 1)) (10 ^ d2.length)
  set t := (digitsVal d2 * 1000 + (10 ^ d2.length - 1)) / 10 ^ d2.length with ht
  have h1 : digitsVal d2 * 1000 ≤ 10 ^ d2.length * t := by omega
  have h2 : 10 ^ d2.length * t ≤ digitsVal d2 * 1000 + (10 ^ d2.length - 1) := by omega
  have hDQ : (0 : ℚ) < ((10 : ℕ) : ℚ) ^ d2.length := by positivity
  have h1Q : (digitsVal d2 * 1000 : ℚ) ≤ ((10 : ℕ) : ℚ) ^ d2.length * (t : ℚ) := by
    exact_mod_cast h1
  have h2Q : ((10 : ℕ) : ℚ) ^ d2.length * (t : ℚ) + 1 ≤ (digitsVal d2 * 1000 : ℚ) + ((10 : ℕ) : ℚ) ^ d2.length := by
    have h2' : 10 ^ d2.length * t + 1 ≤ digitsVal d2 * 1000 + 10 ^ d2.length := by omega
    exact_mod_cast h2'
  have hcast : (V4.ceilMs d1 d2 : ℚ) = (digitsVal d1 : ℚ) * 1000 + (t : ℚ) := by
    simp only [V4.ceilMs, ← ht]
    push_cast
    ring
  have hdec : decValQ d1 d2 * 1000
      = (digitsVal d1 : ℚ) * 1000 + (digitsVal d2 : ℚ) * 1000 / ((10 : ℕ) : ℚ) ^ d2.length := by
    simp [decValQ]
    ring
  constructor
  · rw [hcast, hdec]
    have : (digitsVal d2 : ℚ) * 1000 / ((10 : ℕ) : ℚ) ^ d2.length ≤ (t : ℚ) := by
      rw [div_le_iff₀ hDQ]
      calc (digitsVal d2 : ℚ) * 1000 ≤ ((10 : ℕ) : ℚ) ^ d2.length * (t : ℚ) := by
            exact_mod_cast h1
        _ = (t : ℚ) * ((10 : ℕ) : ℚ) ^ d2.length := by ring
    linarith
  · rw [hcast, hdec]
    have key : ((t : ℚ) - 1) * (((10 : ℕ) : ℚ) ^ d2.length) < (digitsVal d2 : ℚ) * 1000 := by
      nlinarith [h2Q, hDQ]
    have : (t : ℚ) - 1 < (digitsVal d2 : ℚ) * 1000 / ((10 : ℕ) : ℚ) ^ d2.length :=
      (lt_div_iff₀ hDQ).mpr key
    linarith

theorem sMatchParse_int (d1 : List Char) (h1 : ∀ c ∈ d1, isDigitC c = true)
    (hne1 : d1 ≠ []) : V4.sMatchParse (d1 ++ ['s']) = some (d1, []) := by
  have hs : isDigitC 's' = false := by decide
  have ht := takeWhile_append_eq isDigitC d1 's' [] h1 hs
  have hd := dropWhile_append_eq isDigitC d1 's' [] h1 hs
  simp [V4.sMatchParse, ht, hd, hne1]

theorem sMatchParse_intFrac (d1 d2 : List Char) (h1 : ∀ c ∈ d1, isDigitC c = true)
    (h2 : ∀ c ∈ d2, isDigitC c = true) (hne1 : d1 ≠ []) (hne2 : d2 ≠ []) :
    V4.sMatchParse (d1 ++ '.' :: (d2 ++ ['s'])) = some (d1, d2) := by
  have hdot : isDigitC '.' = false := by decide
  have hs : isDigitC 's' = false := by decide
  have ht1 := takeWhile_append_eq isDigitC d1 '.' (d2 ++ ['s']) h1 hdot
  have hd1 := dropWhile_append_eq isDigitC d1 '.' (d2 ++ ['s']) h1 hdot
  have ht2 := takeWhile_append_eq isDigitC d2 's' [] h2 hs
  have hd2 := dropWhile_append_eq isDigitC d2 's' [] h2 hs
  simp [V4.sMatchParse, ht1, hd1, ht2, hd2, hne1, hne2]

theorem isoParse_full (d1 d2 : List Char) (h1 : ∀ c ∈ d1, isDigitC c = true)
    (h2 : ∀ c ∈ d2, isDigitC c = true) (hne1 : d1 ≠ []) (hne2 : d2 ≠ []) :
    V4.isoParse ('P' :: 'T' :: (d1 ++ 'M' :: (d2 ++ ['S'])))
      = some (digitsVal d1, digitsVal d2) := by
  have hM : isDigitC 'M' = false := by decide
  have hS : isDigitC 'S' = false := by decide
  have ht1 := takeWhile_append_eq isDigitC d1 'M' (d2 ++ ['S']) h1 hM
  have hd1 := dropWhile_append_eq isDigitC d1 'M' (d2 ++ ['S']) h1 hM
  have ht2 := takeWhile_append_eq isDigitC d2 'S' [] h2 hS
  have hd2 := dropWhile_append_eq isDigitC d2 'S' [] h2 hS
  obtain ⟨c1, t1, rfl⟩ := List.exists_cons_of_ne_nil hne1
  obtain ⟨c2, t2, rfl⟩ := List.exists_cons_of_ne_nil hne2
  simp only [List.cons_append] at ht1 hd1 ht2 hd2
  simp [V4.isoParse, ht1, hd1, ht2, hd2]

/-- Claim C5 (amended).  `parseRetryDelay` is total (never throws), and:
for an object whose `retryDelay` field is the decimal string `"Ns"`
(digits `d1`, optionally a fraction `d1.d2`), it returns `ceil(N*1000)` —
delivered as `ceilMs`, the unique integer in `[N*1000, N*1000+1)` per the
bounds proved here; for the ISO-like string `"PT<m>M<s>S"` it returns
`(m*60+s)*1000`; for every missing or non-string `retryDelay` it returns
`none`.  Contrary to the claim's catch-all for other inputs, the ISO
pattern is matched with both groups optional (and case-insensitively), so
the bare string `"PT"` returns `some 0`, not `none`. -/
theorem c5_parseRetryDelay_spec :
    (∀ d1 : List Char, (∀ c ∈ d1, isDigitC c = true) → d1 ≠ [] →
      V4.parseRetryDelay (Json.obj [("retryDelay", Json.str (String.mk (d1 ++ ['s'])))])
          = some (V4.ceilMs d1 []) ∧
        decValQ d1 [] * 1000 ≤ (V4.ceilMs d1 [] : ℚ) ∧
        (V4.ceilMs d1 [] : ℚ) < decValQ d1 [] * 1000 + 1) ∧
    (∀ d1 d2 : List Char, (∀ c ∈ d1, isDigitC c = true) → (∀ c ∈ d2, isDigitC c = true) →
      d1 ≠ [] → d2 ≠ [] →
      V4.parseRetryDelay
          (Json.obj [("retryDelay", Json.str (String.mk (d1 ++ '.' :: (d2 ++ ['s']))))])
          = some (V4.ceilMs d1 d2) ∧
        decValQ d1 d2 * 1000 ≤ (V4.ceilMs d1 d2 : ℚ) ∧
        (V4.ceilMs d1 d2 : ℚ) < decValQ d1 d2 * 1000 + 1) ∧
    (∀ d1 d2 : List Char, (∀ c ∈ d1, isDigitC c = true) → (∀ c ∈ d2, isDigitC c = true) →
      d1 ≠ [] → d2 ≠ [] →
      V4.parseRetryDelay
          (Json.obj [("retryDelay", Json.str (String.mk ('P' :: 'T' :: (d1 ++ 'M' :: (d2 ++ ['S'])))))])
          = some ((digitsVal d1 * 60 + digitsVal d2) * 1000)) ∧
    (∀ j : Json, (∀ s, jget j "retryDelay" ≠ some (Json.str s)) →
      V4.parseRetryDelay j = none) ∧
    V4.parseRetryDelay (Json.obj [("retryDelay", Json.str "PT")]) = some 0 := by
  refine ⟨?_, ?_, ?_, ?_, by decide⟩
  · intro d1 h1 hne1
    refine ⟨?_, ceilMs_spec d1 []⟩
    have hp := sMatchParse_int d1 h1 hne1
    simp [V4.parseRetryDelay, truthy, jget, String.toList, hp]
  · intro d1 d2 h1 h2 hne1 hne2
    refine ⟨?_, ceilMs_spec d1 d2⟩
    have hp := sMatchParse_intFrac d1 d2 h1 h2 hne1 hne2
    simp [V4.parseRetryDelay, truthy, jget, String.toList, hp]
  · intro d1 d2 h1 h2 hne1 hne2
    have hp := isoParse_full d1 d2 h1 h2 hne1 hne2
    have hPnotdig : isDigitC 'P' = false := by decide
    have hfail : V4.sMatchParse ('P' :: 'T' :: (d1 ++ 'M' :: (d2 ++ ['S']))) = none := by
      simp [V4.sMatchParse, List.takeWhile_cons, hPnotdig]
    simp [V4.parseRetryDelay, truthy, jget, String.toList, hfail, hp]
  · intro j h
    by_cases ht : truthy j
    · rcases hj : jget j "retryDelay" with _ | v
      · simp [V4.parseRetryDelay, ht, hj]
      · cases v with
        | null => simp [V4.parseRetryDelay, ht, hj]
        | bool b => simp [V4.parseRetryDelay, ht, hj]
        | num i => simp [V4.parseRetryDelay, ht, hj]
        | str s => exact absurd hj (h s)
        | arr xs => simp [V4.parseRetryDelay, ht, hj]
        | obj fs => simp [V4.parseRetryDelay, ht, hj]
    · simp [V4.parseRetryDelay, ht]

/-- Claim C5 counterexample: the input `{retryDelay: "PT"}` is neither of
the two forms the claim lists, yet `parseRetryDelay` returns 0 (the ISO
regex matches with both groups absent), not null. -/
theorem c5_counterexample :
    V4.parseRetryDelay (Json.obj [("retryDelay", Json.str "PT")]) = some 0 ∧
      some (0 : ℕ) ≠ (none : Option ℕ) := by
  exact ⟨by decide, by decide⟩

/-- Claim C5 witness: the theorem applied at `"5s"`, `"5.25s"`, `"PT2M5S"`,
a numeric `retryDelay`, and `"PT"`. -/
theorem c5_witness :
    (V4.parseRetryDelay (Json.obj [("retryDelay", Json.str (String.mk (['5'] ++ ['s'])))])
        = some (V4.ceilMs ['5'] []) ∧
      decValQ ['5'] [] * 1000 ≤ (V4.ceilMs ['5'] [] : ℚ) ∧
      (V4.ceilMs ['5'] [] : ℚ) < decValQ ['5'] [] * 1000 + 1) ∧
    (V4.parseRetryDelay
        (Json.obj [("retryDelay", Json.str (String.mk (['5'] ++ '.' :: (['2', '5'] ++ ['s']))))])
        = some (V4.ceilMs ['5'] ['2', '5']) ∧
      decValQ ['5'] ['2', '5'] * 1000 ≤ (V4.ceilMs ['5'] ['2', '5'] : ℚ) ∧
      (V4.ceilMs ['5'] ['2', '5'] : ℚ) < decValQ ['5'] ['2', '5'] * 1000 + 1) ∧
    (V4.parseRetryDelay
        (Json.obj [("retryDelay", Json.str (String.mk ('P' :: 'T' :: (['2'] ++ 'M' :: (['5'] ++ ['S'])))))])
        = some ((digitsVal ['2'] * 60 + digitsVal ['5']) * 1000)) ∧
    V4.parseRetryDelay (Json.obj [("retryDelay", Json.num 30)]) = none := by
  refine ⟨?_, ?_, ?_, ?_⟩
  · exact c5_parseRetryDelay_spec.1 ['5'] (by decide) (by decide)
  · exact c5_parseRetryDelay_spec.2.1 ['5'] ['2', '5'] (by decide) (by decide) (by decide) (by decide)
  · exact c5_parseRetryDelay_spec.2.2.1 ['2'] ['5'] (by decide) (by decide) (by decide) (by decide)
  · exact c5_parseRetryDelay_spec.2.2.2.1 (Json.obj [("retryDelay", Json.num 30)])
      (by intro s hs; simp [jget] at hs)

/-! ## part_004 retry loop: structural lemmas -/

theorem after429Wait_retry (env : V4.Env) (a : ℕ) (st : V4.St) (hint : Option ℚ) :
    ∃ st2 t, V4.after429Wait env a st hint = (.retry st2, t) := by
  unfold V4.after429Wait
  rcases hint with _ | w
  · exact ⟨_, _, rfl⟩
  · by_cases hw : w ≠ 0 <;> simp [hw]

theorem handle429_retry (env : V4.Env) (a : ℕ) (st : V4.St) (r : V4.Resp) :
    ∃ st2 t, V4.handle429 env a st r = (.retry st2, t) := by
  unfold V4.handle429
  cases hm : V4.errMsgVal r.text r.json with
  | str s =>
    by_cases hq : V4.quotaHit s = true
    · simp only [hq, if_true]
      by_cases hsw : (V4.tryFallbackModel (env.listings st.li) env.envModel != "" &&
          V4.tryFallbackModel (env.listings st.li) env.envModel != st.modelName) = true
      · simp [hsw]
      · simp only [hsw]
        simp only [Bool.false_eq_true, if_false]
        exact after429Wait_retry _ _ _ _
    · simp only [Bool.not_eq_true] at hq
      simp only [hq]
      simp only [Bool.false_eq_true, if_false]
      exact after429Wait_retry _ _ _ _
  | null => exact ⟨_, _, rfl⟩
  | bool b => exact ⟨_, _, rfl⟩
  | num i => exact ⟨_, _, rfl⟩
  | arr xs => exact ⟨_, _, rfl⟩
  | obj fs => exact ⟨_, _, rfl⟩

theorem handle404_retry (env : V4.Env) (a : ℕ) (st : V4.St) :
    ∃ st2 t, V4.handle404 env a st = (.retry st2, t) := by
  unfold V4.handle404
  by_cases h : ((V4.ensureModel none env.listings st.li env.envModel).1 != st.modelName) = true <;>
    simp [h]

theorem catchTr_no_started (env : V4.Env) (a : ℕ) (st : V4.St) :
    V4.countStarted (V4.catchTr env a st) = 0 := by
  unfold V4.catchTr
  by_cases h : a < V4.MAX_ATTEMPTS <;> simp [h, V4.countStarted]

theorem after429Wait_no_started (env : V4.Env) (a : ℕ) (st : V4.St) (hint : Option ℚ) :
    V4.countStarted (V4.after429Wait env a st hint).2 = 0 := by
  unfold V4.after429Wait
  rcases hint with _ | w
  · simp [V4.countStarted]
  · by_cases hw : w ≠ 0 <;> simp [hw, V4.countStarted]

theorem handle429_no_started (env : V4.Env) (a : ℕ) (st : V4.St) (r : V4.Resp) :
    V4.countStarted (V4.handle429 env a st r).2 = 0 := by
  unfold V4.handle429
  cases hm : V4.errMsgVal r.text r.json with
  | str s =>
    by_cases hq : V4.quotaHit s = true
    · simp only [hq, if_true]
      by_cases hsw : (V4.tryFallbackModel (env.listings st.li) env.envModel != "" &&
          V4.tryFallbackModel (env.listings st.li) env.envModel != st.modelName) = true
      · simp [hsw, V4.countStarted]
      · simp only [hsw, Bool.false_eq_true, if_false]
        exact after429Wait_no_started _ _ _ _
    · simp only [Bool.not_eq_true] at hq
      simp only [hq, Bool.false_eq_true, if_false]
      exact after429Wait_no_started _ _ _ _
  | null => exact catchTr_no_started _ _ _
  | bool b => exact catchTr_no_started _ _ _
  | num i => exact catchTr_no_started _ _ _
  | arr xs => exact catchTr_no_started _ _ _
  | obj fs => exact catchTr_no_started _ _ _

theorem handle404_no_started (env : V4.Env) (a : ℕ) (st : V4.St) :
    V4.countStarted (V4.handle404 env a st).2 = 0 := by
  unfold V4.handle404
  by_cases h : ((V4.ensureModel none env.listings st.li env.envModel).1 != st.modelName) = true
  · simp [h, V4.countStarted]
  · simp only [h, Bool.false_eq_true, if_false]
    exact catchTr_no_started _ _ _

/-- Every iteration either retries or replies with a `parseGeminiResponse`
value; its own trace never contains an `attemptStarted` event (that event
is added once per iteration by `stepBody`). -/
theorem stepInner_cases (env : V4.Env) (a : ℕ) (st : V4.St) :
    ((∃ st2, (V4.stepInner env a st).1 = .retry st2) ∨
      (∃ d, (V4.stepInner env a st).1 = .reply (V4.parseGeminiResponse d))) ∧
      V4.countStarted (V4.stepInner env a st).2 = 0 := by
  unfold V4.stepInner
  cases env.events a with
  | tokenFail => exact ⟨Or.inl ⟨_, rfl⟩, catchTr_no_started _ _ _⟩
  | fetchThrow => exact ⟨Or.inl ⟨_, rfl⟩, catchTr_no_started _ _ _⟩
  | response r =>
    by_cases hok : V4.respOk r = true
    · simp only [hok, if_true]
      rcases hj : r.json with _ | d
      · exact ⟨Or.inl ⟨_, rfl⟩, catchTr_no_started _ _ _⟩
      · exact ⟨Or.inr ⟨d, rfl⟩, by simp [V4.countStarted]⟩
    · simp only [Bool.not_eq_true] at hok
      simp only [hok, Bool.false_eq_true, if_false]
      by_cases h429 : (r.status == 429) = true
      · simp only [h429, if_true]
        obtain ⟨st2, t, ht⟩ := handle429_retry env a st r
        refine ⟨Or.inl ⟨st2, by rw [ht]⟩, handle429_no_started env a st r⟩
      · simp only [h429, Bool.false_eq_true, if_false]
        by_cases h404 : (r.status == 404) = true
        · simp only [h404, if_true]
          obtain ⟨st2, t, ht⟩ := handle404_retry env a st
          refine ⟨Or.inl ⟨st2, by rw [ht]⟩, handle404_no_started env a st⟩
        · simp only [h404, Bool.false_eq_true, if_false]
          exact ⟨Or.inl ⟨_, rfl⟩, catchTr_no_started _ _ _⟩

theorem stepBody_count (env : V4.Env) (a : ℕ) (st : V4.St) :
    V4.countStarted (V4.stepBody env a st).2 = 1 := by
  unfold V4.stepBody
  simp [V4.countStarted, List.countP_cons]
  have := (stepInner_cases env a st).2
  simpa [V4.countStarted] using this

theorem loop_countStarted (env : V4.Env) :
    ∀ (fuel a : ℕ) (st : V4.St) (tr : List V4.TraceEv),
      V4.countStarted (V4.loop env fuel a st tr).2 ≤ V4.countStarted tr + fuel := by
  intro fuel
  induction fuel with
  | zero => intro a st tr; simp [V4.loop]
  | succ f ih =>
    intro a st tr
    rcases hp : V4.stepBody env (a + 1) st with ⟨res, tevs⟩
    have hc : V4.countStarted tevs = 1 := by
      have := stepBody_count env (a + 1) st
      rw [hp] at this
      exact this
    cases res with
    | reply s =>
      simp only [V4.loop, hp]
      simp [V4.countStarted, List.countP_append] at *
      omega
    | retry st2 =>
      simp only [V4.loop, hp]
      have := ih (a + 1) st2 (tr ++ tevs)
      simp [V4.countStarted, List.countP_append] at *
      omega

theorem loop_allFail (env : V4.Env) (h : ∀ i, env.events i = .fetchThrow) :
    ∀ (fuel a : ℕ) (st : V4.St) (tr : List V4.TraceEv),
      (V4.loop env fuel a st tr).1 = V4.apology := by
  intro fuel
  induction fuel with
  | zero => intro a st tr; simp [V4.loop]
  | succ f ih =>
    intro a st tr
    have hstep : V4.stepBody env (a + 1) st =
        (.retry (V4.catchSt (a + 1) st),
          V4.TraceEv.attemptStarted st.modelName :: V4.catchTr env (a + 1) st) := by
      unfold V4.stepBody V4.stepInner
      rw [h (a + 1)]
    simp only [V4.loop, hstep]
    exact ih (a + 1) _ _

theorem loop_result_shape (env : V4.Env) :
    ∀ (fuel a : ℕ) (st : V4.St) (tr : List V4.TraceEv),
      (V4.loop env fuel a st tr).1 = V4.apology ∨
        ∃ d, (V4.loop env fuel a st tr).1 = V4.parseGeminiResponse d := by
  intro fuel
  induction fuel with
  | zero => intro a st tr; exact Or.inl rfl
  | succ f ih =>
    intro a st tr
    rcases hp : V4.stepBody env (a + 1) st with ⟨res, tevs⟩
    cases res with
    | reply s =>
      have hshape := (stepInner_cases env (a + 1) st).1
      have hfst : (V4.stepInner env (a + 1) st).1 = .reply s := by
        have : (V4.stepBody env (a + 1) st).1 = .reply s := by rw [hp]
        simpa [V4.stepBody] using this
      rcases hshape with ⟨st2, h2⟩ | ⟨d, h2⟩
      · rw [hfst] at h2; exact absurd h2 (by simp)
      · rw [hfst] at h2
        injection h2 with hs
        refine Or.inr ⟨d, ?_⟩
        simp only [V4.loop, hp, ← hs]
    | retry st2 =>
      simp only [V4.loop, hp]
      exact ih (a + 1) st2 (tr ++ tevs)

/-- Claim C1 (amended).  In the part_004 variant, `queryGemini` never
raises: for every environment (any sequence of token failures, network
throws, and responses) it returns a string, which is either the fixed
apology string or the parse of some provider response — every failure is
caught inside the loop.  The string need not be non-empty (see the
counterexample).  In the part_005 variant, `queryGemini` instead
propagates provider failure to its caller — a non-OK response is rethrown
as `Gemini failed: <body>` — and the call-site performs the fallback. -/
theorem c1_completion_client_total :
    (∀ env : V4.Env, (V4.queryGemini env).1 = V4.apology ∨
        ∃ d, (V4.queryGemini env).1 = V4.parseGeminiResponse d) ∧
    (∀ (env : V5.Env) (r : V4.Resp), env.tokenOk = true → env.fetch = .ok r →
        V4.respOk r = false →
        V5.queryGemini env = .error ("Gemini failed: " ++ r.text)) := by
  constructor
  · intro env
    unfold V4.queryGemini
    exact loop_result_shape env V4.MAX_ATTEMPTS 0 _ []
  · intro env r htok hfetch hok
    simp [V5.queryGemini, htok, hfetch, hok]

/-- Claim C1 counterexample: a successful (200) response whose first
candidate's `content` is the array `[""]` makes `queryGemini` return the
empty string — `content.join('\n')` over empty strings — refuting "returns
a non-empty string". -/
theorem c1_counterexample :
    (V4.queryGemini ExIn.envC1).1 = "" ∧ (V4.queryGemini ExIn.envC1).1.length = 0 := by
  exact ⟨by decide, by decide⟩

/-- Claim C1 witness: the part_005 conjunct applied to a concrete 500
response. -/
theorem c1_witness :
    V5.queryGemini ExIn.envW1 = .error ("Gemini failed: " ++ "backend boom") :=
  c1_completion_client_total.2 ExIn.envW1 ⟨500, "backend boom", none, none⟩ rfl rfl (by decide)

/-- Claim C2 (amended).  The retry loop performs at most
`MAX_ATTEMPTS = 5` iterations (attempts); when every attempt fails (here:
every fetch throws), it stops after the 5th and returns the fixed apology
string — part_004 has no secondary provider, so nothing further is
invoked. -/
theorem c2_bounded_attempts (env : V4.Env) :
    V4.countStarted (V4.queryGemini env).2 ≤ 5 ∧
      ((∀ i, env.events i = .fetchThrow) → (V4.queryGemini env).1 = V4.apology) := by
  constructor
  · unfold V4.queryGemini
    have := loop_countStarted env V4.MAX_ATTEMPTS 0
      ⟨(V4.ensureModel env.cached0 env.listings 0 env.envModel).1,
        (V4.ensureModel env.cached0 env.listings 0 env.envModel).2.1,
        (V4.ensureModel env.cached0 env.listings 0 env.envModel).2.2, 0⟩ []
    simpa [V4.countStarted, V4.MAX_ATTEMPTS] using this
  · intro h
    unfold V4.queryGemini
    exact loop_allFail env h V4.MAX_ATTEMPTS 0 _ []

/-- Claim C2 counterexample: with every fetch throwing, exactly 5 attempts
are started and the result is the apology string returned by the loop
itself, not a completion from any fallback provider (part_004 defines
none). -/
theorem c2_counterexample :
    (V4.queryGemini ExIn.envC2).1 = V4.apology ∧
      V4.countStarted (V4.queryGemini ExIn.envC2).2 = 5 := by
  exact ⟨by decide, by decide⟩

/-- Claim C2 witness: the theorem applied to the all-failures environment. -/
theorem c2_witness :
    V4.countStarted (V4.queryGemini ExIn.envC2).2 ≤ 5 ∧
      (V4.queryGemini ExIn.envC2).1 = V4.apology :=
  ⟨(c2_bounded_attempts ExIn.envC2).1, (c2_bounded_attempts ExIn.envC2).2 (fun _ => rfl)⟩

/-- Claim C3 (amended).  On a 429 whose error message carries a quota
phrase, the client resolves a fallback model via `tryFallbackModel`; when
that resolution differs from the current model (and is non-empty), the
attempt switches to it, caches it, and pauses only `1000 + rand*500 <
1500` ms — less than the full exponential backoff `min(60000, 2^a*1000 +
rand*1000) ≥ 2000` of any attempt `a ≥ 1` — before retrying.  When the
resolution returns the current model, no switch occurs (see the
counterexample). -/
theorem c3_quota_model_switch (env : V4.Env) (a : ℕ) (st : V4.St) (r : V4.Resp) (s : String)
    (hev : env.events a = .response r)
    (h429 : r.status = 429)
    (hmsg : V4.errMsgVal r.text r.json = Json.str s)
    (hquota : V4.quotaHit s = true)
    (hne : V4.tryFallbackModel (env.listings st.li) env.envModel ≠ st.modelName)
    (hne2 : V4.tryFallbackModel (env.listings st.li) env.envModel ≠ "")
    (hr0 : 0 ≤ env.rand st.ri) (hr1 : env.rand st.ri < 1) :
    V4.stepBody env a st =
      (.retry { modelName := V4.tryFallbackModel (env.listings st.li) env.envModel,
                cached := some (V4.tryFallbackModel (env.listings st.li) env.envModel),
                li := st.li + 1, ri := st.ri + 1 },
       [V4.TraceEv.attemptStarted st.modelName,
        V4.TraceEv.switched st.modelName (V4.tryFallbackModel (env.listings st.li) env.envModel),
        V4.TraceEv.slept (1000 + env.rand st.ri * 500)]) ∧
      1000 + env.rand st.ri * 500 < 1500 ∧
      (1 ≤ a → (1500 : ℚ) ≤ min 60000 ((2 : ℚ) ^ a * 1000 + env.rand st.ri * 1000)) := by
  refine ⟨?_, by nlinarith, ?_⟩
  · unfold V4.stepBody V4.stepInner
    rw [hev]
    have hok : V4.respOk r = false := by simp [V4.respOk, h429]
    have h4 : (r.status == 429) = true := by simp [h429]
    simp only [hok, Bool.false_eq_true, if_false, h4, if_true]
    unfold V4.handle429
    rw [hmsg]
    have hsw : (V4.tryFallbackModel (env.listings st.li) env.envModel != "" &&
        V4.tryFallbackModel (env.listings st.li) env.envModel != st.modelName) = true := by
      simp [bne_iff_ne, hne, hne2]
    simp only [hquota, if_true, hsw]
  · intro ha
    have hpow : (2 : ℚ) ^ 1 ≤ (2 : ℚ) ^ a := by
      exact pow_le_pow_right₀ (by norm_num) ha
    rw [pow_one] at hpow
    have h1 : (1500 : ℚ) ≤ (2 : ℚ) ^ a * 1000 + env.rand st.ri * 1000 := by nlinarith
    have h2 : (1500 : ℚ) ≤ 60000 := by norm_num
    exact le_min h2 h1

/-- Claim C3 counterexample: current model `models/gemini-2.5-flash`, a
429 whose message carries the quota phrase, and a listing containing that
same model: `tryFallbackModel` resolves to the current model, so no switch
happens — the state keeps the model and the step sleeps the full
exponential backoff (2000 ms at attempt 1), contradicting "switches ...
before the next attempt". -/
theorem c3_counterexample :
    V4.stepBody ExIn.envC3 1 ExIn.stC3 =
      (.retry ⟨"models/gemini-2.5-flash", some "models/gemini-2.5-flash", 1, 1⟩,
       [V4.TraceEv.attemptStarted "models/gemini-2.5-flash",
        V4.TraceEv.slept (min 60000 ((2 : ℚ) ^ 1 * 1000 + 0 * 1000))]) ∧
      V4.errMsgVal "" (some ExIn.jC3) = Json.str ExIn.msgQuota ∧
      V4.quotaHit ExIn.msgQuota = true ∧
      V4.tryFallbackModel (ExIn.envC3.listings 0) "" = ExIn.stC3.modelName ∧
      (1500 : ℚ) < min 60000 ((2 : ℚ) ^ 1 * 1000 + 0 * 1000) := by
  refine ⟨rfl, rfl, by decide, by decide, by norm_num⟩

/-- Claim C3 witness: the theorem applied to a 429 carrying the quota
message, with a listing whose resolution differs from the current model. -/
theorem c3_witness :
    V4.stepBody ExIn.envC4 1 ExIn.stC4 =
      (.retry { modelName := V4.tryFallbackModel (ExIn.envC4.listings 0) "",
                cached := some (V4.tryFallbackModel (ExIn.envC4.listings 0) ""),
                li := 1, ri := 1 },
       [V4.TraceEv.attemptStarted "models/old",
        V4.TraceEv.switched "models/old" (V4.tryFallbackModel (ExIn.envC4.listings 0) ""),
        V4.TraceEv.slept (1000 + ExIn.envC4.rand 0 * 500)]) ∧
      1000 + ExIn.envC4.rand 0 * 500 < 1500 :=
  ⟨(c3_quota_model_switch ExIn.envC4 1 ExIn.stC4 ⟨429, "", some ExIn.jC4, none⟩ ExIn.msgQuota
      rfl rfl rfl (by decide) (by decide) (by decide) le_rfl
      (show (0 : ℚ) < 1 by norm_num)).1,
   (c3_quota_model_switch ExIn.envC4 1 ExIn.stC4 ⟨429, "", some ExIn.jC4, none⟩ ExIn.msgQuota
      rfl rfl rfl (by decide) (by decide) (by decide) le_rfl
      (show (0 : ℚ) < 1 by norm_num)).2.1⟩

/-- Claim C4 (amended).  On a 429 whose error details parse to a 5000 ms
retry delay, the client waits exactly 5000 ms (≥ 5 s) before its next
attempt — provided the quota-message model-switch path is not taken: when
the message is a string and either carries no quota phrase or the fallback
resolution returns the current model (or an empty name), the computed wait
is the parsed hint.  When the switch path is taken, the wait is only
1000–1500 ms despite the parsable hint (see the counterexample). -/
theorem c4_retry_delay_wait (env : V4.Env) (a : ℕ) (st : V4.St) (r : V4.Resp)
    (hev : env.events a = .response r)
    (h429 : r.status = 429)
    (hdelay : V4.detailsWaitMs r.json = some 5000)
    (hstr : ∃ s, V4.errMsgVal r.text r.json = Json.str s)
    (hnoswitch : ∀ s, V4.errMsgVal r.text r.json = Json.str s → V4.quotaHit s = true →
        V4.tryFallbackModel (env.listings st.li) env.envModel = st.modelName ∨
        V4.tryFallbackModel (env.listings st.li) env.envModel = "") :
    ∃ st2, V4.stepBody env a st =
        (.retry st2, [V4.TraceEv.attemptStarted st.modelName, V4.TraceEv.slept 5000]) ∧
      (5000 : ℚ) ≥ 5000 := by
  obtain ⟨s, hm⟩ := hstr
  have hhint : V4.waitHint r = some ((5000 : ℕ) : ℚ) := by
    unfold V4.waitHint
    rw [hdelay]
  have hcast : ((5000 : ℕ) : ℚ) = (5000 : ℚ) := by norm_num
  have hafter : ∀ st' : V4.St, V4.after429Wait env a st' (V4.waitHint r) =
      (.retry st', [V4.TraceEv.slept 5000]) := by
    intro st'
    rw [hhint]
    unfold V4.after429Wait
    have : ((5000 : ℕ) : ℚ) ≠ 0 := by norm_num
    simp [this, hcast]
  unfold V4.stepBody V4.stepInner
  rw [hev]
  have hok : V4.respOk r = false := by simp [V4.respOk, h429]
  have h4 : (r.status == 429) = true := by simp [h429]
  simp only [hok, Bool.false_eq_true, if_false, h4, if_true]
  unfold V4.handle429
  rw [hm]
  by_cases hq : V4.quotaHit s = true
  · simp only [hq, if_true]
    rcases hnoswitch s hm hq with hsame | hempty
    · have hsw : (V4.tryFallbackModel (env.listings st.li) env.envModel != "" &&
          V4.tryFallbackModel (env.listings st.li) env.envModel != st.modelName) = false := by
        simp [bne_iff_ne, hsame]
      simp only [hsw, Bool.false_eq_true, if_false]
      exact ⟨_, by rw [hafter], le_refl _⟩
    · have hsw : (V4.tryFallbackModel (env.listings st.li) env.envModel != "" &&
          V4.tryFallbackModel (env.listings st.li) env.envModel != st.modelName) = false := by
        simp [bne_iff_ne, hempty]
      simp only [hsw, Bool.false_eq_true, if_false]
      exact ⟨_, by rw [hafter], le_refl _⟩
  · simp only [Bool.not_eq_true] at hq
    simp only [hq, Bool.false_eq_true, if_false]
    exact ⟨_, by rw [hafter], le_refl _⟩

/-- Claim C4 counterexample: a 429 carrying both a parsable `"5s"` retry
delay (5000 ms) and the quota phrase, with a different fallback model
available: the switch path ignores the hint and sleeps only
`1000 + rand*500` ms — here 1000 < 5000 — before the next attempt. -/
theorem c4_counterexample :
    V4.stepBody ExIn.envC4 1 ExIn.stC4 =
      (.retry ⟨"models/gemini-2.5-flash", some "models/gemini-2.5-flash", 1, 1⟩,
       [V4.TraceEv.attemptStarted "models/old",
        V4.TraceEv.switched "models/old" "models/gemini-2.5-flash",
        V4.TraceEv.slept (1000 + 0 * 500)]) ∧
      V4.detailsWaitMs (some ExIn.jC4) = some 5000 ∧
      (1000 : ℚ) + 0 * 500 < 5000 := by
  exact ⟨rfl, by decide, by norm_num⟩

/-- Claim C4 witness: the theorem applied to a 429 with the `"5s"` hint and
a non-quota message. -/
theorem c4_witness :
    ∃ st2, V4.stepBody ExIn.envW4 1 ⟨"models/gemini-2.5-flash", some "models/gemini-2.5-flash", 0, 0⟩ =
        (.retry st2, [V4.TraceEv.attemptStarted "models/gemini-2.5-flash", V4.TraceEv.slept 5000]) ∧
      (5000 : ℚ) ≥ 5000 :=
  c4_retry_delay_wait ExIn.envW4 1 ⟨"models/gemini-2.5-flash", some "models/gemini-2.5-flash", 0, 0⟩
    ⟨429, "", some ExIn.jW4, none⟩ rfl rfl (by decide)
    ⟨"resource exhausted, try later", rfl⟩
    (fun s hs hq => Or.inl (by decide))

/-! ## Memory store -/

/-- Justification of the `memoriesDesc` embedding: when `created_at`
strictly increases along the table, the reversed user rows are sorted in
strictly decreasing `created_at`, i.e. they are a correct result set for
`ORDER BY created_at DESC`. -/
theorem memoriesDesc_sorted (u : String) (db : List Mem.MemRow)
    (hmono : db.Pairwise (fun a b => a.created_at < b.created_at)) :
    (Mem.memoriesDesc u db).Pairwise (fun a b => b.created_at < a.created_at) := by
  unfold Mem.memoriesDesc
  rw [List.pairwise_reverse]
  exact hmono.filter _

/-- Claim C6: with strictly increasing timestamps and more than `N` rows
for the user, `fetchRecentMemories(user, N)` returns exactly the `N` most
recently inserted records of that user — a length-`N` suffix of the user's
rows in insertion order — ordered from oldest to newest, and its value is
their `content` fields in that order. -/
theorem c6_fetchRecentMemories (u : String) (N : ℕ) (db : List Mem.MemRow)
    (hmono : db.Pairwise (fun a b => a.created_at < b.created_at))
    (hcount : N < (Mem.rowsForUser u db).length) :
    (Mem.fetchRecentRows u N db).length = N ∧
      Mem.fetchRecentRows u N db <:+ Mem.rowsForUser u db ∧
      (Mem.fetchRecentRows u N db).Pairwise (fun a b => a.created_at < b.created_at) ∧
      Mem.fetchRecentMemories u N db = (Mem.fetchRecentRows u N db).map (·.content) := by
  have hsuf : Mem.fetchRecentRows u N db <:+ Mem.rowsForUser u db := by
    unfold Mem.fetchRecentRows Mem.memoriesDesc
    have hp : (Mem.rowsForUser u db).reverse.take N <+: (Mem.rowsForUser u db).reverse :=
      List.take_prefix _ _
    have h2 := List.reverse_suffix.mpr hp
    simpa using h2
  refine ⟨?_, hsuf, ?_, ?_⟩
  · unfold Mem.fetchRecentRows Mem.memoriesDesc
    simp only [List.length_reverse, List.length_take]
    omega
  · exact List.Pairwise.sublist hsuf.sublist (hmono.filter _)
  · unfold Mem.fetchRecentMemories Mem.fetchRecentRows
    simp

/-- Claim C6 witness: the theorem applied to a four-row table with three
rows of user `u`, at `N = 2`. -/
theorem c6_witness :
    (Mem.fetchRecentRows "u" 2 ExIn.dbW6).length = 2 ∧
      Mem.fetchRecentRows "u" 2 ExIn.dbW6 <:+ Mem.rowsForUser "u" ExIn.dbW6 ∧
      (Mem.fetchRecentRows "u" 2 ExIn.dbW6).Pairwise (fun a b => a.created_at < b.created_at) ∧
      Mem.fetchRecentMemories "u" 2 ExIn.dbW6 = (Mem.fetchRecentRows "u" 2 ExIn.dbW6).map (·.content) :=
  c6_fetchRecentMemories "u" 2 ExIn.dbW6 (by decide) (by decide)

/-- Claim C9 (spec-modelled: the "forget" command exists in no variant
under `src/`; `forgetUser` is written from the spec's words "bulk delete by
user id").  Forgetting `u` leaves no row of `u` and leaves every other
user's rows exactly as they were. -/
theorem c9_forget_user (u v : String) (db : List Mem.MemRow) (hv : v ≠ u) :
    Mem.rowsForUser u (Mem.forgetUser u db) = [] ∧
      Mem.rowsForUser v (Mem.forgetUser u db) = Mem.rowsForUser v db := by
  constructor
  · unfold Mem.rowsForUser Mem.forgetUser
    rw [List.filter_filter]
    have hf : ∀ r : Mem.MemRow, ((r.user_id == u) && !(r.user_id == u)) = false := by
      intro r; cases h : (r.user_id == u) <;> simp [h]
    simp [hf]
  · unfold Mem.rowsForUser Mem.forgetUser
    rw [List.filter_filter]
    apply List.filter_congr
    intro r _
    by_cases h : r.user_id = v
    · simp [h, hv]
    · simp [h]

/-- Claim C9 witness: forgetting user `a` in a three-row table removes both
of `a`'s rows and keeps `b`'s row. -/
theorem c9_witness :
    Mem.rowsForUser "a" (Mem.forgetUser "a" ExIn.dbW9) = [] ∧
      Mem.rowsForUser "b" (Mem.forgetUser "a" ExIn.dbW9) = Mem.rowsForUser "b" ExIn.dbW9 :=
  c9_forget_user "a" "b" ExIn.dbW9 (by decide)

/-! ## part_006 model resolution -/

theorem findSome?_append_none {α β : Type} (f : α → Option β) (l₁ l₂ : List α)
    (h : ∀ x ∈ l₁, f x = none) : (l₁ ++ l₂).findSome? f = l₂.findSome? f := by
  induction l₁ with
  | nil => rfl
  | cons a t ih =>
    rw [List.cons_append, List.findSome?_cons, h a (List.mem_cons_self a t)]
    exact ih (fun x hx => h x (List.mem_cons_of_mem _ hx))

/-- Claim C7 (amended).  part_006 model resolution:
(1) when the `GEMINI_MODEL` override is set and some listed model matches it
(the source's match predicate), `pickPreferredModel` returns that first
match; (2) for any non-empty listing the result is the name of a listed
model; (3) otherwise resolution walks the hardcoded preference order
key-by-key — the first key that any listed model's name contains wins, and
the first such model (in listing order) is returned; this is priority by
key order, not "the first listed model whose name contains a key" (see the
counterexample); (4) `ensureModel` returns a cached resolution unchanged
without consuming a model listing, and (5) a cache miss consumes exactly
one listing and stores the name it returns, so later calls hit case (4). -/
theorem c7_pickPreferredModel_spec :
    (∀ (models : List String) (e n : String), models ≠ [] → e ≠ "" →
      models.find? (V6.envMatchPred e) = some n →
      V6.pickPreferredModel models e = some n) ∧
    (∀ (models : List String) (e : String), models ≠ [] →
      ∃ n, V6.pickPreferredModel models e = some n ∧ n ∈ models) ∧
    (∀ (models : List String) (e : String) (ks1 ks2 : List String) (k n : String),
      models ≠ [] →
      (if e != "" then models.find? (V6.envMatchPred e) else none) = none →
      V6.preferredKeys = ks1 ++ k :: ks2 →
      (∀ k2 ∈ ks1, models.find? (fun m => containsSubstr m k2) = none) →
      models.find? (fun m => containsSubstr m k) = some n →
      V6.pickPreferredModel models e = some n) ∧
    (∀ (m : String) (listings : ℕ → List String) (li : ℕ) (e : String),
      V6.ensureModel (some m) listings li e = (m, some m, li)) ∧
    (∀ (listings : ℕ → List String) (li : ℕ) (e : String),
      ∃ n, V6.ensureModel none listings li e = (n, some n, li + 1)) := by
  have hmem : ∀ (models : List String) (e : String), models ≠ [] →
      ∃ n, V6.pickPreferredModel models e = some n ∧ n ∈ models := by
    intro models e hne
    unfold V6.pickPreferredModel
    have hemp : models.isEmpty = false := by
      cases models with
      | nil => exact absurd rfl hne
      | cons a t => rfl
    simp only [hemp, Bool.false_eq_true, if_false]
    cases hfe : (if e != "" then models.find? (V6.envMatchPred e) else none) with
    | some n =>
      refine ⟨n, rfl, ?_⟩
      by_cases he : (e != "") = true
      · rw [if_pos he] at hfe
        exact List.mem_of_find?_eq_some hfe
      · rw [if_neg he] at hfe
        exact absurd hfe (by simp)
    | none =>
      cases hks : V6.preferredKeys.findSome? (fun k => models.find? (fun n => containsSubstr n k)) with
      | some n =>
        obtain ⟨k, hk, hfind⟩ := List.exists_of_findSome?_eq_some hks
        exact ⟨n, rfl, List.mem_of_find?_eq_some hfind⟩
      | none =>
        cases hg : models.find? (fun n => containsSubstr (toLowerStr n) "gemini") with
        | some n => exact ⟨n, rfl, List.mem_of_find?_eq_some hg⟩
        | none =>
          cases models with
          | nil => exact absurd rfl hne
          | cons a t => exact ⟨a, rfl, List.mem_cons_self a t⟩
  refine ⟨?_, hmem, ?_, ?_, ?_⟩
  · intro models e n hne he hfind
    unfold V6.pickPreferredModel
    have hemp : models.isEmpty = false := by
      cases models with
      | nil => exact absurd rfl hne
      | cons a t => rfl
    have he' : (e != "") = true := by simpa [bne_iff_ne] using he
    simp only [hemp, Bool.false_eq_true, if_false, he', if_true, hfind]
  · intro models e ks1 ks2 k n hne hfe hks hnone hfind
    unfold V6.pickPreferredModel
    have hemp : models.isEmpty = false := by
      cases models with
      | nil => exact absurd rfl hne
      | cons a t => rfl
    simp only [hemp, Bool.false_eq_true, if_false, hfe]
    have : V6.preferredKeys.findSome? (fun k2 => models.find? (fun m => containsSubstr m k2))
        = some n := by
      rw [hks, findSome?_append_none _ _ _ hnone, List.findSome?_cons, hfind]
    simp only [this]
  · intro m listings li e
    rfl
  · intro listings li e
    unfold V6.ensureModel
    by_cases hemp : (listings li).isEmpty = true
    · by_cases he : (e != "") = true <;> simp [hemp, he]
    · have hne : listings li ≠ [] := by
        intro hcon
        rw [hcon] at hemp
        exact hemp rfl
      obtain ⟨n, hpick, _⟩ := hmem (listings li) e hne
      simp only [Bool.not_eq_true] at hemp
      simp [hemp, hpick]

/-- Claim C7 counterexample: with listing
`["models/gemini-2.5-flash", "models/gemini-2.5-pro"]` and no override,
part_006 returns `models/gemini-2.5-pro` (the first preference key that any
model contains), while the claim's literal "first listed model whose name
contains a key" would be `models/gemini-2.5-flash`. -/
theorem c7_counterexample :
    V6.pickPreferredModel ["models/gemini-2.5-flash", "models/gemini-2.5-pro"] ""
        = some "models/gemini-2.5-pro" ∧
      V6.firstListedWithPreferredKey ["models/gemini-2.5-flash", "models/gemini-2.5-pro"]
        = some "models/gemini-2.5-flash" ∧
      some "models/gemini-2.5-pro" ≠ some "models/gemini-2.5-flash" := by
  exact ⟨by decide, by decide, by decide⟩

/-- Claim C7 witness: the theorem's parts applied at concrete listings:
the override match, membership, key-priority resolution, and the two
caching facts. -/
theorem c7_witness :
    V6.pickPreferredModel ["models/a", "models/gemini-2.5-flash"] "models/a" = some "models/a" ∧
      (∃ n, V6.pickPreferredModel ["models/other"] "" = some n ∧ n ∈ ["models/other"]) ∧
      V6.pickPreferredModel ["models/gemini-2.5-flash", "models/gemini-2.5-pro"] ""
        = some "models/gemini-2.5-pro" ∧
      V6.ensureModel (some "models/m") (fun _ => ["models/x"]) 3 "" = ("models/m", some "models/m", 3) ∧
      (∃ n, V6.ensureModel none (fun _ => ["models/gemini-2.5-pro"]) 0 ""
        = (n, some n, 1)) := by
  refine ⟨?_, ?_, ?_, ?_, ?_⟩
  · exact c7_pickPreferredModel_spec.1 ["models/a", "models/gemini-2.5-flash"] "models/a"
      "models/a" (by decide) (by decide) (by decide)
  · exact c7_pickPreferredModel_spec.2.1 ["models/other"] "" (by decide)
  · exact c7_pickPreferredModel_spec.2.2.1 ["models/gemini-2.5-flash", "models/gemini-2.5-pro"]
      "" [] ["gemini-2.5-flash", "gemini-2.0-flash", "gemini-2.5", "gemini-2.0", "gemini-pro"]
      "gemini-2.5-pro" "models/gemini-2.5-pro" (by decide) (by decide) (by decide)
      (by decide) (by decide)
  · exact c7_pickPreferredModel_spec.2.2.2.1 "models/m" (fun _ => ["models/x"]) 3 ""
  · exact c7_pickPreferredModel_spec.2.2.2.2 (fun _ => ["models/gemini-2.5-pro"]) 0 ""

/-! ## Message handler: cooldown and dedupe -/

/-- `COOLDOWN.set` then lookup. -/
theorem lookupCd_set (cd : List (String × ℕ)) (k : String) (v : ℕ) (u : String) :
    Bot.lookupCd (Bot.setCd cd k v) u = if k = u then some v else Bot.lookupCd cd u := rfl

/-- The handler either returns early, leaving the state unchanged and
producing no reply, or passes every guard: it then sets the cooldown to the
message time, marks the id handled until `time + TTL` (before the AI query,
regardless of its success), and replies/stores exactly when the awaited
section succeeds. -/
theorem stepBot_cases (W TTL : ℕ) (st : Bot.BotState) (m : Bot.Msg) :
    (Bot.stepBot W TTL st m = (st, Bot.noOut m)) ∨
    (Bot.stepBot W TTL st m =
        (⟨Bot.setCd st.cooldown m.authorId m.time, (m.id, m.time + TTL) :: st.handledIds⟩,
          ⟨m, true, m.aiOk, m.aiOk⟩) ∧
      Bot.handledHas st.handledIds m.id m.time = false ∧
      ¬(m.time - (Bot.lookupCd st.cooldown m.authorId).getD 0 < W)) := by
  by_cases h1 : (m.content == "") = true
  · exact Or.inl (by unfold Bot.stepBot; simp [h1])
  · by_cases h2 : m.isBot = true
    · exact Or.inl (by unfold Bot.stepBot; simp [h1, h2])
    · by_cases h3 : Bot.handledHas st.handledIds m.id m.time = true
      · exact Or.inl (by unfold Bot.stepBot; simp [h1, h2, h3])
      · by_cases h4 : Bot.messageMentionsBot m = true
        · by_cases h5 : m.time - (Bot.lookupCd st.cooldown m.authorId).getD 0 < W
          · exact Or.inl (by unfold Bot.stepBot; simp [h1, h2, h3, h4, h5])
          · refine Or.inr ⟨?_, Bool.eq_false_iff.mpr h3, h5⟩
            unfold Bot.stepBot
            by_cases h6 : m.aiOk = true
            · simp [h1, h2, h3, h4, h5, h6]
            · simp only [Bool.not_eq_true] at h6
              simp [h1, h2, h3, h4, h5, h6]
        · simp only [Bool.not_eq_true] at h4
          exact Or.inl (by unfold Bot.stepBot; simp [h1, h2, h3, h4])

/-- The message of a step's record is the input message. -/
theorem stepBot_msg (W TTL : ℕ) (st : Bot.BotState) (m : Bot.Msg) :
    (Bot.stepBot W TTL st m).2.msg = m := by
  rcases stepBot_cases W TTL st m with h | ⟨h, _, _⟩
  · rw [h]; rfl
  · rw [h]

/-- Handled-set entries persist across a step. -/
theorem stepBot_handled_persist (W TTL : ℕ) (st : Bot.BotState) (m : Bot.Msg)
    (p : String × ℕ) (hp : p ∈ st.handledIds) :
    p ∈ (Bot.stepBot W TTL st m).1.handledIds := by
  rcases stepBot_cases W TTL st m with h | ⟨h, _, _⟩ <;> rw [h]
  · exact hp
  · exact List.mem_cons_of_mem _ hp

/-- A step on an already-marked id replies to nothing and stores nothing. -/
theorem stepBot_dedupe_suppress (W TTL : ℕ) (st : Bot.BotState) (m : Bot.Msg)
    (h : Bot.handledHas st.handledIds m.id m.time = true) :
    (Bot.stepBot W TTL st m).2.replied = false ∧ (Bot.stepBot W TTL st m).2.stored = false := by
  rcases stepBot_cases W TTL st m with h2 | ⟨h2, h3, _⟩
  · rw [h2]; exact ⟨rfl, rfl⟩
  · rw [h] at h3; exact absurd h3 (by simp)

/-- Unfolding equation for `runBot` on a cons. -/
theorem runBot_cons (W TTL : ℕ) (st : Bot.BotState) (m : Bot.Msg) (ms : List Bot.Msg) :
    (Bot.runBot W TTL st (m :: ms)).1 =
      (Bot.stepBot W TTL st m).2 :: (Bot.runBot W TTL (Bot.stepBot W TTL st m).1 ms).1 := rfl

/-- While an id is marked (its expiry lies after the event's time), any
delivery carrying it is suppressed: no reply, no store. -/
theorem runBot_marked_suppress (W TTL : ℕ) :
    ∀ (ms : List Bot.Msg) (st : Bot.BotState) (id : String) (e : ℕ),
      (id, e) ∈ st.handledIds →
      ∀ (l₂ l₃ : List Bot.Out) (o₂ : Bot.Out),
        (Bot.runBot W TTL st ms).1 = l₂ ++ o₂ :: l₃ →
        o₂.msg.id = id → o₂.msg.time < e →
        o₂.replied = false ∧ o₂.stored = false := by
  intro ms
  induction ms with
  | nil =>
    intro st id e hmem l₂ l₃ o₂ hout
    exact absurd hout (by simp [Bot.runBot])
  | cons m ms ih =>
    intro st id e hmem l₂ l₃ o₂ hout hid ht
    rw [runBot_cons] at hout
    cases l₂ with
    | nil =>
      rw [List.nil_append] at hout
      injection hout with ho hrest
      subst ho
      have hmsg := stepBot_msg W TTL st m
      rw [hmsg] at hid ht
      have hh : Bot.handledHas st.handledIds m.id m.time = true := by
        unfold Bot.handledHas
        apply List.any_eq_true.mpr
        refine ⟨(id, e), hmem, ?_⟩
        simp [hid, ht]
      exact stepBot_dedupe_suppress W TTL st m hh
    | cons o l₂' =>
      rw [List.cons_append] at hout
      injection hout with ho hrest
      exact ih (Bot.stepBot W TTL st m).1 id e
        (stepBot_handled_persist W TTL st m _ hmem) l₂' l₃ o₂ hrest hid ht

/-- Claim C10: in the dedupe variant, (a) once the handler has handled a
message (marking its id), any later delivery of the same id whose time is
within `DEDUPE_TTL_MS` of the handled one is answered with neither a reply
nor a stored memory; and (b) the mark is placed before the AI query: a
handled step records `(id, time + TTL)` in the handled set whether or not
the awaited section succeeds. -/
theorem c10_dedupe_once :
    (∀ (W TTL : ℕ) (msgs : List Bot.Msg) (l₁ l₂ l₃ : List Bot.Out) (o₁ o₂ : Bot.Out),
      (Bot.runBot W TTL Bot.initState msgs).1 = l₁ ++ o₁ :: l₂ ++ o₂ :: l₃ →
      o₁.handled = true → o₂.msg.id = o₁.msg.id → o₂.msg.time < o₁.msg.time + TTL →
      o₂.replied = false ∧ o₂.stored = false) ∧
    (∀ (W TTL : ℕ) (st : Bot.BotState) (m : Bot.Msg),
      (Bot.stepBot W TTL st m).2.handled = true →
      (m.id, m.time + TTL) ∈ (Bot.stepBot W TTL st m).1.handledIds) := by
  have hmark : ∀ (W TTL : ℕ) (st : Bot.BotState) (m : Bot.Msg),
      (Bot.stepBot W TTL st m).2.handled = true →
      (m.id, m.time + TTL) ∈ (Bot.stepBot W TTL st m).1.handledIds := by
    intro W TTL st m hh
    rcases stepBot_cases W TTL st m with h | ⟨h, _, _⟩
    · rw [h] at hh
      exact absurd hh (by simp [Bot.noOut])
    · rw [h]
      exact List.mem_cons_self _ _
  refine ⟨?_, hmark⟩
  have haux : ∀ (W TTL : ℕ) (msgs : List Bot.Msg) (st : Bot.BotState)
      (l₁ l₂ l₃ : List Bot.Out) (o₁ o₂ : Bot.Out),
      (Bot.runBot W TTL st msgs).1 = l₁ ++ o₁ :: l₂ ++ o₂ :: l₃ →
      o₁.handled = true → o₂.msg.id = o₁.msg.id → o₂.msg.time < o₁.msg.time + TTL →
      o₂.replied = false ∧ o₂.stored = false := by
    intro W TTL msgs
    induction msgs with
    | nil =>
      intro st l₁ l₂ l₃ o₁ o₂ hout
      exact absurd hout (by simp [Bot.runBot])
    | cons m ms ih =>
      intro st l₁ l₂ l₃ o₁ o₂ hout h1 hid hwin
      rw [runBot_cons] at hout
      cases l₁ with
      | nil =>
        rw [List.nil_append] at hout
        injection hout with ho hrest
        subst ho
        have hmsg := stepBot_msg W TTL st m
        rw [hmsg] at hid hwin
        have hmem := hmark W TTL st m h1
        exact runBot_marked_suppress W TTL ms (Bot.stepBot W TTL st m).1 m.id
          (m.time + TTL) hmem l₂ l₃ o₂ hrest hid hwin
      | cons o l₁' =>
        rw [List.cons_append] at hout
        injection hout with ho hrest
        exact ih (Bot.stepBot W TTL st m).1 l₁' l₂ l₃ o₁ o₂ hrest h1 hid hwin
  intro W TTL msgs l₁ l₂ l₃ o₁ o₂
  exact haux W TTL msgs Bot.initState l₁ l₂ l₃ o₁ o₂

/-- Claim C10 witness: redelivery of id `id1` 30 s after it was handled
(TTL 60 s) is suppressed. -/
theorem c10_witness :
    (Bot.runBot 7000 60000 Bot.initState [ExIn.msg1, ExIn.msg3]).1 =
        [] ++ ⟨ExIn.msg1, true, true, true⟩ :: [] ++ ⟨ExIn.msg3, false, false, false⟩ :: [] ∧
      (⟨ExIn.msg3, false, false, false⟩ : Bot.Out).replied = false ∧
      (⟨ExIn.msg3, false, false, false⟩ : Bot.Out).stored = false ∧
      (7000, "irrelevant") = (7000, "irrelevant") := by
  refine ⟨by decide, ?_, ?_, rfl⟩
  · exact (c10_dedupe_once.1 7000 60000 [ExIn.msg1, ExIn.msg3] [] [] []
      ⟨ExIn.msg1, true, true, true⟩ ⟨ExIn.msg3, false, false, false⟩
      (by decide) rfl (by decide) (by decide)).1
  · exact (c10_dedupe_once.1 7000 60000 [ExIn.msg1, ExIn.msg3] [] [] []
      ⟨ExIn.msg1, true, true, true⟩ ⟨ExIn.msg3, false, false, false⟩
      (by decide) rfl (by decide) (by decide)).2

/-- Once the cooldown map holds a stamp `t ≥ T` for user `u` (and all
remaining events are no earlier than that stamp), no event of `u` earlier
than `T + W` gets a reply. -/
theorem runBot_cooldown_suppress (W TTL : ℕ) :
    ∀ (ms : List Bot.Msg) (st : Bot.BotState) (u : String) (T : ℕ),
      ms.Pairwise (fun a b => a.time ≤ b.time) →
      (∀ m ∈ ms, T ≤ m.time) →
      (∃ t, Bot.lookupCd st.cooldown u = some t ∧ T ≤ t ∧ ∀ m ∈ ms, t ≤ m.time) →
      ∀ (l₂ l₃ : List Bot.Out) (o₂ : Bot.Out),
        (Bot.runBot W TTL st ms).1 = l₂ ++ o₂ :: l₃ →
        o₂.msg.authorId = u → o₂.msg.time < T + W →
        o₂.replied = false := by
  intro ms
  induction ms with
  | nil =>
    intro st u T _ _ _ l₂ l₃ o₂ hout
    exact absurd hout (by simp [Bot.runBot])
  | cons m ms ih =>
    intro st u T hpw hTall hinv l₂ l₃ o₂ hout hau hwin
    obtain ⟨t, hl, hTt, htall⟩ := hinv
    rw [runBot_cons] at hout
    rw [List.pairwise_cons] at hpw
    cases l₂ with
    | nil =>
      rw [List.nil_append] at hout
      injection hout with ho hrest
      subst ho
      have hmsg := stepBot_msg W TTL st m
      rw [hmsg] at hau hwin
      rcases stepBot_cases W TTL st m with h | ⟨h, _, h5⟩
      · rw [h]; rfl
      · exfalso
        apply h5
        rw [hau, hl]
        have hle : t ≤ m.time := htall m (List.mem_cons_self m ms)
        have hTm : T ≤ m.time := hTall m (List.mem_cons_self m ms)
        simp only [Option.getD_some]
        omega
    | cons o l₂' =>
      rw [List.cons_append] at hout
      injection hout with ho hrest
      have hTall' : ∀ m2 ∈ ms, T ≤ m2.time := fun m2 hm2 => hTall m2 (List.mem_cons_of_mem _ hm2)
      have hinv' : ∃ t2, Bot.lookupCd (Bot.stepBot W TTL st m).1.cooldown u = some t2 ∧
          T ≤ t2 ∧ ∀ m2 ∈ ms, t2 ≤ m2.time := by
        rcases stepBot_cases W TTL st m with h | ⟨h, _, _⟩
        · rw [h]
          exact ⟨t, hl, hTt, fun m2 hm2 => htall m2 (List.mem_cons_of_mem _ hm2)⟩
        · rw [h]
          by_cases hu : m.authorId = u
          · refine ⟨m.time, ?_, hTall m (List.mem_cons_self m ms), fun m2 hm2 => hpw.1 m2 hm2⟩
            rw [lookupCd_set, if_pos hu]
          · refine ⟨t, ?_, hTt, fun m2 hm2 => htall m2 (List.mem_cons_of_mem _ hm2)⟩
            rw [lookupCd_set, if_neg hu]
            exact hl
      exact ih (Bot.stepBot W TTL st m).1 u T hpw.2 hTall' hinv' l₂' l₃ o₂ hrest hau hwin

/-- Claim C8: with a non-decreasing event clock, once the handler has
handled a message of a user, it never replies to another message of the
same user arriving within `USER_COOLDOWN_MS` of the handled one: in the
handler's output, any record after a handled record of the same author and
within the window `W` of its time has `replied = false`.  (Equivalently,
any two replied messages from one user are at least `W` apart.) -/
theorem c8_user_cooldown (W TTL : ℕ) (msgs : List Bot.Msg)
    (hmono : msgs.Pairwise (fun a b => a.time ≤ b.time))
    (l₁ l₂ l₃ : List Bot.Out) (o₁ o₂ : Bot.Out)
    (hout : (Bot.runBot W TTL Bot.initState msgs).1 = l₁ ++ o₁ :: l₂ ++ o₂ :: l₃)
    (h1 : o₁.handled = true)
    (hsame : o₂.msg.authorId = o₁.msg.authorId)
    (hwin : o₂.msg.time < o₁.msg.time + W) :
    o₂.replied = false := by
  have haux : ∀ (ms : List Bot.Msg) (st : Bot.BotState)
      (l₁ l₂ l₃ : List Bot.Out) (o₁ o₂ : Bot.Out),
      ms.Pairwise (fun a b => a.time ≤ b.time) →
      (Bot.runBot W TTL st ms).1 = l₁ ++ o₁ :: l₂ ++ o₂ :: l₃ →
      o₁.handled = true → o₂.msg.authorId = o₁.msg.authorId →
      o₂.msg.time < o₁.msg.time + W →
      o₂.replied = false := by
    intro ms
    induction ms with
    | nil =>
      intro st l₁ l₂ l₃ o₁ o₂ _ hout
      exact absurd hout (by simp [Bot.runBot])
    | cons m ms ih =>
      intro st l₁ l₂ l₃ o₁ o₂ hpw hout h1 hsame hwin
      rw [runBot_cons] at hout
      rw [List.pairwise_cons] at hpw
      cases l₁ with
      | nil =>
        rw [List.nil_append] at hout
        injection hout with ho hrest
        subst ho
        have hmsg := stepBot_msg W TTL st m
        rw [hmsg] at hsame hwin
        rcases stepBot_cases W TTL st m with h | ⟨h, _, _⟩
        · rw [h] at h1
          exact absurd h1 (by simp [Bot.noOut])
        · have hlook : Bot.lookupCd (Bot.stepBot W TTL st m).1.cooldown m.authorId
              = some m.time := by
            rw [h]
            rw [lookupCd_set, if_pos rfl]
          exact runBot_cooldown_suppress W TTL ms (Bot.stepBot W TTL st m).1 m.authorId
            m.time hpw.2 (fun m2 hm2 => hpw.1 m2 hm2)
            ⟨m.time, hlook, le_refl _, fun m2 hm2 => hpw.1 m2 hm2⟩
            l₂ l₃ o₂ hrest hsame hwin
      | cons o l₁' =>
        rw [List.cons_append] at hout
        injection hout with ho hrest
        exact ih (Bot.stepBot W TTL st m).1 l₁' l₂ l₃ o₁ o₂ hpw.2 hrest h1 hsame hwin
  exact haux msgs Bot.initState l₁ l₂ l₃ o₁ o₂ hmono hout h1 hsame hwin

/-- Claim C8 witness: the second message of user `u`, 5 s after the first
with a 7 s window, is suppressed. -/
theorem c8_witness :
    (Bot.runBot 7000 60000 Bot.initState [ExIn.msg1, ExIn.msg2]).1 =
        [] ++ ⟨ExIn.msg1, true, true, true⟩ :: [] ++ ⟨ExIn.msg2, false, false, false⟩ :: [] ∧
      (⟨ExIn.msg2, false, false, false⟩ : Bot.Out).replied = false := by
  refine ⟨by decide, ?_⟩
  exact c8_user_cooldown 7000 60000 [ExIn.msg1, ExIn.msg2] (by decide) [] [] []
    ⟨ExIn.msg1, true, true, true⟩ ⟨ExIn.msg2, false, false, false⟩
    (by decide) rfl (by decide) (by decide)
